import Mathlib

/-! Observable properties: value cell, signal and listeners.

A shallow embedding of `property.go`.

* Pointers become identifiers into a heap (`World`): a `*Signal[T]` is a
  `SignalId`, a `*Listener[T]` is a `ListenerId`, and a nil pointer is `none`.
* `interface{}` arguments become `Any T O`: either a value whose dynamic type
  is `T`, or a value of some other dynamic type.
* A Go panic (send on a closed channel, close of a closed channel, method call
  through a nil interface) is the result `none`.
* Two ghost traces record what cannot be read back from the Go heap: the
  calls of `Emit` (`emitted`) and the values handed to listener channels
  (`sent`).
* The goroutine started by `Subscribe` is a per-listener control state
  (`Loop`) stepped by `Sys.loopStep`; interleavings are chosen by a schedule.
* The `sync.RWMutex` is not represented: every function below that takes the
  lock in the source is one atomic transformation of the world.
* Reachable states are those of `applyAll`: sequences of calls of the public
  methods and of goroutine moves (`Op`), callbacks being those that write user
  variables and call `Unsubscribe` (`UserCallback`).
* `T comparable` is a type with its operator `==` and its type assertion
  (`GoComparable`): `==` need not be reflexive and can panic.
-/

namespace GoProperty

/-! ## Data model -/

/-- Address of a `Signal[T]`. -/
abbrev SignalId := Nat

/-- Address of a `Listener[T]`. -/
abbrev ListenerId := Nat

/-- A Go `interface{}` value seen from type `T`: the conversion of a `T` value
to `interface{}` (`val`), or anything else (`other`). -/
inductive Any (T : Type) (O : Type) where
  | val (v : T)
  | other (o : O)

/-- The unbuffered `chan T` of a listener: only whether it has been closed. -/
structure Chan where
  closed : Bool
deriving DecidableEq, Repr

/-- `type Listener[T any] struct { channel chan T; signal *Signal[T] }`. -/
structure Listener where
  channel : Chan
  signal : Option SignalId
deriving DecidableEq, Repr

/-- `type Signal[T any] struct { mutex sync.RWMutex; listeners []*Listener[T] }`. -/
structure Signal where
  listeners : List ListenerId
deriving DecidableEq, Repr

/-- The heap, the ghost traces and the variables the user callbacks write. -/
structure World (T : Type) (σ : Type) where
  signals : SignalId → Signal
  listeners : ListenerId → Listener
  nextListener : ListenerId
  nextSignal : SignalId
  emitted : List (SignalId × T)
  sent : List (ListenerId × T)
  user : σ

/-- What the constraint `comparable` gives for `T`. `eq` is the operator `==`:
it need not be reflexive (a floating point NaN is not `==` to itself) and it
can panic, which is `none` (an interface-typed `T` holding two values of the
same dynamic type that cannot be compared, such as slices). `asserts v` is
whether the type assertion `.(T)` succeeds on the conversion of `v` to
`interface{}`: always for a `T` that is not an interface type, and for every
value but nil when it is one. -/
class GoComparable (T : Type) where
  eq : T → T → Option Bool
  asserts : T → Bool

/-- The `==` of a type without floating point or interface-typed parts:
equality, never a panic. -/
def GoComparable.strict {T : Type} [DecidableEq T] : GoComparable T :=
  { eq := fun a b => some (decide (a = b)), asserts := fun _ => true }

/-- Go `int` values, as natural numbers. -/
instance instGoComparableNat : GoComparable Nat := GoComparable.strict

/-- A `float64`, as far as `==` goes: NaN, or a number. -/
inductive GoFloat where
  | nan
  | num (n : Nat)
deriving DecidableEq, Repr

/-- `==` on `float64`: NaN is equal to nothing, itself included. -/
instance instGoComparableGoFloat : GoComparable GoFloat :=
  { eq := fun a b =>
      match a, b with
      | .num x, .num y => some (decide (x = y))
      | _, _ => some false
    asserts := fun _ => true }

/-- A value of the interface type `any`: nil, an `int`, or a slice. -/
inductive GoAny where
  | nil
  | int (n : Nat)
  | slice (xs : List Nat)
deriving DecidableEq, Repr

/-- `==` on `any`: values of different dynamic types are different, two
slices cannot be compared (a run-time panic); the type assertion `.(any)`
fails on nil only. -/
instance instGoComparableGoAny : GoComparable GoAny :=
  { eq := fun a b =>
      match a, b with
      | .nil, .nil => some true
      | .int x, .int y => some (decide (x = y))
      | .slice _, .slice _ => none
      | _, _ => some false
    asserts := fun a =>
      match a with
      | .nil => false
      | _ => true }

/-- The dynamic type stored in the `comparator` interface field, with the
capability its type constraint provides: `==` for `*BasicProperty[T]`, the
method `T.Equals` for `*ComparableProperty[T]`. -/
inductive Comparator (T : Type) (O : Type) where
  | basic (eq : GoComparable T)
  | comparable (Equals : T → Any T O → Bool)

/-- `type BaseProperty[T any] struct { value T; changed Signal[T]; comparator Comparable }`.
The embedded signal is referred to by its address. -/
structure BaseProperty (T : Type) (O : Type) where
  value : T
  changed : SignalId
  comparator : Option (Comparator T O)

variable {T O σ : Type}

/-- An empty heap with user variables `u`. -/
def World.empty (u : σ) : World T σ :=
  { signals := fun _ => ⟨[]⟩
    listeners := fun _ => ⟨⟨false⟩, none⟩
    nextListener := 0
    nextSignal := 0
    emitted := []
    sent := []
    user := u }

/-! ## Constructors -/

/-- `NewBasicProperty`: the zero `Signal` is allocated with the cell and the
comparator is the cell itself, as a `*BasicProperty[T]`. -/
def NewBasicProperty [inst : GoComparable T] (value : T) (w : World T σ) :
    BaseProperty T O × World T σ :=
  ({ value := value, changed := w.nextSignal, comparator := some (.basic inst) },
   { w with signals := Function.update w.signals w.nextSignal ⟨[]⟩
            nextSignal := w.nextSignal + 1 })

/-- `NewComparableProperty`: as above, as a `*ComparableProperty[T]`; `tEquals`
is the method `Equals` of the value type. -/
def NewComparableProperty (tEquals : T → Any T O → Bool) (value : T) (w : World T σ) :
    BaseProperty T O × World T σ :=
  ({ value := value, changed := w.nextSignal, comparator := some (.comparable tEquals) },
   { w with signals := Function.update w.signals w.nextSignal ⟨[]⟩
            nextSignal := w.nextSignal + 1 })

/-! ## Equality -/

/-- `func (p *BasicProperty[T]) Equals(v interface{}) bool`: when the type
assertion `v.(T)` succeeds the result is that of `p.value == v_` (a panic when
the comparison panics), and false otherwise. -/
def BasicProperty.Equals [g : GoComparable T] (p : BaseProperty T O) (v : Any T O) :
    Option Bool :=
  match v with
  | .val v_ => if g.asserts v_ then g.eq p.value v_ else some false
  | .other _ => some false

/-- `func (p *ComparableProperty[T]) Equals(v interface{}) bool`. -/
def ComparableProperty.Equals (tEquals : T → Any T O → Bool) (p : BaseProperty T O)
    (v : Any T O) : Bool :=
  tEquals p.value v

/-- `func (p *BaseProperty[T]) Equals(v interface{}) bool`: dynamic dispatch
through `p.comparator`; a nil comparator panics, and so does a panic of `==`. -/
def BaseProperty.Equals (p : BaseProperty T O) (v : Any T O) : Option Bool :=
  match p.comparator with
  | none => none
  | some (.basic inst) => @BasicProperty.Equals T O inst p v
  | some (.comparable tEquals) => some (ComparableProperty.Equals tEquals p v)

/-- `func (p *BaseProperty[T]) Get() T`. -/
def BaseProperty.Get (p : BaseProperty T O) : T :=
  p.value

/-- `ChangedSignal` of both flavors: `&p.changed`. -/
def BaseProperty.ChangedSignal (p : BaseProperty T O) : SignalId :=
  p.changed

/-! ## Signal and listeners -/

/-- `s.listeners = append(s.listeners, listener)` under the write lock. -/
def Signal.addListener (s : SignalId) (listener : ListenerId) (w : World T σ) : World T σ :=
  { w with signals := Function.update w.signals s ⟨(w.signals s).listeners ++ [listener]⟩ }

/-- The loop of `removeListener`: cut out the first entry equal to `listener`
and stop. -/
def removeFirst (listener : ListenerId) : List ListenerId → List ListenerId
  | [] => []
  | l :: rest => if l = listener then rest else l :: removeFirst listener rest

/-- `func (s *Signal[T]) removeListener(listener *Listener[T])`. -/
def Signal.removeListener (s : SignalId) (listener : ListenerId) (w : World T σ) : World T σ :=
  { w with signals := Function.update w.signals s ⟨removeFirst listener (w.signals s).listeners⟩ }

/-- `func (l *Listener[T]) Unsubscribe()`. -/
def Listener.Unsubscribe (l : ListenerId) (w : World T σ) : World T σ :=
  match (w.listeners l).signal with
  | some s =>
    let w1 := Signal.removeListener s l w
    { w1 with listeners := Function.update w1.listeners l { w1.listeners l with signal := none } }
  | none => w

/-- The copy of the listener slice that `Emit` takes under the read lock. -/
def Signal.snapshot (s : SignalId) (w : World T σ) : List ListenerId :=
  (w.signals s).listeners

/-- `l.channel <- value`: panics on a closed channel, otherwise the value is
handed over (and recorded in `sent`). -/
def chanSend (l : ListenerId) (value : T) (w : World T σ) : Option (World T σ) :=
  if (w.listeners l).channel.closed then none
  else some { w with sent := w.sent ++ [(l, value)] }

/-- The delivery loop of `Emit` over a snapshot. -/
def sendAll (value : T) : List ListenerId → World T σ → Option (World T σ)
  | [], w => some w
  | l :: rest, w =>
    match chanSend l value w with
    | none => none
    | some w1 => sendAll value rest w1

/-- `func (s *Signal[T]) Emit(value T)`; the call itself is recorded in
`emitted`. -/
def Signal.Emit (s : SignalId) (value : T) (w : World T σ) : Option (World T σ) :=
  let listeners := Signal.snapshot s w
  sendAll value listeners { w with emitted := w.emitted ++ [(s, value)] }

/-- `func (p *BaseProperty[T]) Set(value T)`. -/
def BaseProperty.Set (p : BaseProperty T O) (value : T) (w : World T σ) :
    Option (BaseProperty T O × World T σ) :=
  match p.Equals (.val value) with
  | none => none
  | some eq =>
    let changed := !eq
    let p1 := { p with value := value }
    if changed then
      match Signal.Emit p1.changed p1.value w with
      | none => none
      | some w1 => some (p1, w1)
    else some (p1, w)

/-- A caller running `p.Set(v)` for each `v` of the list in turn, every `Emit`
running to its end before the next `Set`. -/
def BaseProperty.SetAll (p : BaseProperty T O) : List T → World T σ →
    Option (BaseProperty T O × World T σ)
  | [], w => some (p, w)
  | v :: vs, w =>
    match p.Set v w with
    | none => none
    | some (p1, w1) => BaseProperty.SetAll p1 vs w1

/-- The values of a list that differ from their predecessor, `prev` being the
predecessor of the first: the distinct transitions of the specification. -/
def transitions [DecidableEq T] (prev : T) : List T → List T
  | [] => []
  | v :: vs => if v = prev then transitions v vs else v :: transitions v vs

/-- The values of a list that `Set` finds changed, `prev` being the value
before the first: those `v` for which the comparison with the value before,
made as `BasicProperty.Equals` makes it (type assertion, then `==`), does not
answer true. The result is `none` when one of the comparisons panics. -/
def goTransitions [g : GoComparable T] (prev : T) : List T → Option (List T)
  | [] => some []
  | v :: vs =>
    match (if g.asserts v then g.eq prev v else some false) with
    | none => none
    | some true => goTransitions v vs
    | some false =>
      match goTransitions v vs with
      | none => none
      | some ts => some (v :: ts)

/-! ## The delivery goroutine -/

/-- Where the goroutine started by `Subscribe` stands. -/
inductive Loop (T : Type) where
  /-- blocked in `v, ok := <-listener.channel` -/
  | receiving
  /-- has received `v` with `ok = true` and is about to test `listener.signal` -/
  | got (v : T)
  /-- has found `listener.signal != nil` and is about to call `cb(v)` -/
  | calling (v : T)
  /-- has left the loop, closed the channel and called `Unsubscribe` -/
  | exited

/-- The world together with the running goroutines: the callback each listener
was subscribed with, the control state of its goroutine, and the ghost trace
of callback invocations. -/
structure Sys (T : Type) (σ : Type) where
  world : World T σ
  callbacks : ListenerId → T → World T σ → World T σ
  loops : ListenerId → Loop T
  calls : List (ListenerId × T)

/-- No goroutine is running. -/
def Sys.empty (u : σ) : Sys T σ :=
  { world := World.empty u
    callbacks := fun _ _ w => w
    loops := fun _ => .exited
    calls := [] }

/-- What one move of a thread can be. -/
inductive Step (α : Type) where
  /-- the thread cannot move in this state -/
  | blocked
  /-- the program panics -/
  | panic
  | next (a : α)

/-- `func (s *Signal[T]) Subscribe(callback func(T)) *Listener[T]`: a new
listener with an open channel and back-reference `s` is appended to the list
and its goroutine starts at the receive. -/
def Signal.Subscribe (s : SignalId) (callback : T → World T σ → World T σ) (sys : Sys T σ) :
    ListenerId × Sys T σ :=
  let listener := sys.world.nextListener
  let w1 : World T σ :=
    { sys.world with
        listeners := Function.update sys.world.listeners listener ⟨⟨false⟩, some s⟩
        nextListener := listener + 1 }
  let w2 := Signal.addListener s listener w1
  (listener,
   { sys with
       world := w2
       callbacks := Function.update sys.callbacks listener callback
       loops := Function.update sys.loops listener .receiving })

/-- The code after the `for` loop: `close(listener.channel)` (a panic when the
channel is already closed), then `listener.Unsubscribe()`. -/
def Sys.loopExit (l : ListenerId) (sys : Sys T σ) : Step (Sys T σ) :=
  if (sys.world.listeners l).channel.closed then .panic
  else
    let w1 : World T σ :=
      { sys.world with
          listeners := Function.update sys.world.listeners l
            { sys.world.listeners l with channel := ⟨true⟩ } }
    .next { sys with world := Listener.Unsubscribe l w1
                     loops := Function.update sys.loops l .exited }

/-- One move of the goroutine of listener `l`. With a received value it makes
the test `listener.signal == nil`: it leaves the loop when the back-reference
is nil and goes on to the call otherwise. The call `cb(v)` is a move of its
own, so other threads can move between the test and the call. At the receive
it moves only when the channel is closed (`ok = false`).
A callback is one atomic move: what it shares with other threads is the
listener list, which it touches only inside `removeListener`, under the lock. -/
def Sys.loopStep (l : ListenerId) (sys : Sys T σ) : Step (Sys T σ) :=
  match sys.loops l with
  | .got v =>
    if (sys.world.listeners l).signal = none then sys.loopExit l
    else .next { sys with loops := Function.update sys.loops l (.calling v) }
  | .calling v =>
    .next { sys with world := sys.callbacks l v sys.world
                     loops := Function.update sys.loops l .receiving
                     calls := sys.calls ++ [(l, v)] }
  | .receiving =>
    if (sys.world.listeners l).channel.closed then sys.loopExit l else .blocked
  | .exited => .blocked

/-! ## One caller setting a list of values -/

/-- A caller running `p.Set(v)` for each `v` of `todo` in turn, next to the
goroutines of `sys`. `pending` is what is left of the snapshot of the `Emit`
in progress, each entry with the value being emitted. -/
structure Run (T : Type) (O : Type) (σ : Type) where
  sys : Sys T σ
  prop : BaseProperty T O
  todo : List T
  pending : List (ListenerId × T)

/-- One move of the caller. With a pending send: the rendezvous with the
listener goroutine (panic on a closed channel, blocked while the goroutine is
not at its receive). Otherwise the next `Set` up to and including the snapshot
taken by `Emit`. -/
def Run.setterStep (r : Run T O σ) : Step (Run T O σ) :=
  match r.pending with
  | (l, v) :: rest =>
    match chanSend l v r.sys.world with
    | none => .panic
    | some w1 =>
      match r.sys.loops l with
      | .receiving =>
        .next { r with sys := { r.sys with world := w1
                                           loops := Function.update r.sys.loops l (.got v) }
                       pending := rest }
      | _ => .blocked
  | [] =>
    match r.todo with
    | [] => .blocked
    | value :: rest =>
      match r.prop.Equals (.val value) with
      | none => .panic
      | some eq =>
        let changed := !eq
        let p1 := { r.prop with value := value }
        if changed then
          .next { r with prop := p1
                         todo := rest
                         sys := { r.sys with
                                    world := { r.sys.world with
                                                 emitted := r.sys.world.emitted ++
                                                   [(p1.changed, p1.value)] } }
                         pending := (Signal.snapshot p1.changed r.sys.world).map
                                      (fun l => (l, p1.value)) }
        else .next { r with prop := p1, todo := rest }

/-- One move of the goroutine of `l` inside a run. -/
def Run.loopStep (l : ListenerId) (r : Run T O σ) : Step (Run T O σ) :=
  match r.sys.loopStep l with
  | .blocked => .blocked
  | .panic => .panic
  | .next sys1 => .next { r with sys := sys1 }

/-- One tick of the two-thread system (the caller and the goroutine of `l`):
the preferred thread moves when it can, the other one otherwise. -/
def Run.tick (l : ListenerId) (preferSetter : Bool) (r : Run T O σ) : Step (Run T O σ) :=
  if preferSetter then
    match r.setterStep with
    | .blocked => r.loopStep l
    | x => x
  else
    match r.loopStep l with
    | .blocked => r.setterStep
    | x => x

/-- Run under the schedule `sched` (which thread is preferred at each tick)
until no thread can move or the fuel is used up; `none` is a panic. -/
def Run.exec (l : ListenerId) (sched : Nat → Bool) : Nat → Run T O σ → Option (Run T O σ)
  | 0, r => some r
  | fuel + 1, r =>
    match r.tick l (sched fuel) with
    | .blocked => some r
    | .panic => none
    | .next r1 => Run.exec l sched fuel r1

/-- No thread of the run can move. -/
def Run.quiescent (l : ListenerId) (r : Run T O σ) : Prop :=
  ∀ b, (match r.tick l b with | .blocked => True | _ => False)

/-- The callback of `TestSimplePropertyUnsubscribe`: count the call, and
unsubscribe the listener itself once the value reaches `k`. -/
def countingCallback (k : Nat) (l : ListenerId) (v : Nat) (w : World Nat Nat) : World Nat Nat :=
  let w1 := { w with user := w.user + 1 }
  if k ≤ v then Listener.Unsubscribe l w1 else w1

/-- The scenario of `TestSimplePropertyUnsubscribe`: a property created with
0, one listener subscribed with `countingCallback k`, and a caller about to
set `0, 1, .., n`. Returns the listener and the run. -/
def unsubscribeScenario (k n : Nat) : ListenerId × Run Nat Unit Nat :=
  let pw := NewBasicProperty (O := Unit) 0 (World.empty 0)
  let sys0 : Sys Nat Nat := { (Sys.empty 0 : Sys Nat Nat) with world := pw.2 }
  let l := sys0.world.nextListener
  let ls := Signal.Subscribe pw.1.ChangedSignal (countingCallback k l) sys0
  (ls.1, { sys := ls.2, prop := pw.1, todo := List.range (n + 1), pending := [] })

/-- The scenario of `TestSimpleIntPropertyMultipleSubscriptions`: a property
created with 0 and two listeners whose callbacks count their calls. -/
def twoSubscribers : BaseProperty Nat Unit × Sys Nat Nat :=
  let pw := NewBasicProperty (O := Unit) 0 (World.empty 0)
  let sys0 : Sys Nat Nat := { (Sys.empty 0 : Sys Nat Nat) with world := pw.2 }
  let count : Nat → World Nat Nat → World Nat Nat := fun _ w => { w with user := w.user + 1 }
  let sys1 := (Signal.Subscribe pw.1.ChangedSignal count sys0).2
  let sys2 := (Signal.Subscribe pw.1.ChangedSignal count sys1).2
  (pw.1, sys2)

/-- A value type whose method `Equals` looks at the first component only: two
values with different second components are equal for it. -/
def firstEquals (c : Nat × Nat) (v : Any (Nat × Nat) Unit) : Bool :=
  match v with
  | .val o => decide (c.1 = o.1)
  | .other _ => false

/-- The method `Equals` of `dummycomparable` in the tests: never equal. -/
def dummyEquals (_c : Nat) (_v : Any Nat Unit) : Bool :=
  false

/-- A state of the scenario with `k = 1`, `n = 2` in which a value reaches the
listener after its unsubscription: the caller, always preferred, has taken the
snapshot for 2 while the callback for 1 had not run yet, and after the
callback has unsubscribed the listener the goroutine has received 2. -/
def lateValueState : Sys Nat Nat :=
  match Run.exec 0 (fun _ => true) 7 (unsubscribeScenario 1 2).2 with
  | some r => r.sys
  | none => Sys.empty 0

/-! ## The unsubscribe scenario seen through its observable quantities

Used in proofs only: the scenario has one listener, so a run is determined by
a handful of first-order quantities. `Abs` collects them, `Abs.tick` is the
move of the two threads on them, and `Rep` ties them to a `Run`. -/

/-- The observable quantities of a run of the unsubscribe scenario. -/
structure Abs where
  /-- `p.value` -/
  value : Nat
  /-- the values still to be set -/
  todo : List Nat
  /-- the values still to be sent to the listener by the `Emit` in progress -/
  pending : List Nat
  /-- the listener is in the list and its back-reference is set -/
  sub : Bool
  /-- the channel of the listener is closed -/
  closed : Bool
  /-- the goroutine of the listener -/
  loop : Loop Nat
  /-- `callCount` -/
  count : Nat
  /-- the values the callback was called with -/
  calls : List Nat

/-- The move of the caller on the observable quantities. -/
def Abs.setterStep (a : Abs) : Step Abs :=
  match a.pending with
  | v :: rest =>
    if a.closed then .panic
    else
      match a.loop with
      | .receiving => .next { a with loop := .got v, pending := rest }
      | _ => .blocked
  | [] =>
    match a.todo with
    | [] => .blocked
    | v :: rest =>
      if a.value = v then .next { a with value := v, todo := rest }
      else .next { a with value := v, todo := rest, pending := if a.sub then [v] else [] }

/-- The move of the listener goroutine on the observable quantities. -/
def Abs.loopStep (k : Nat) (a : Abs) : Step Abs :=
  match a.loop with
  | .got v =>
    if a.sub then .next { a with loop := .calling v }
    else if a.closed then .panic
    else .next { a with closed := true, loop := .exited }
  | .calling v =>
    .next { a with count := a.count + 1, calls := a.calls ++ [v], loop := .receiving
                   sub := a.sub && !(decide (k ≤ v)) }
  | .receiving => if a.closed then .panic else .blocked
  | .exited => .blocked

/-- One tick on the observable quantities, as `Run.tick`. -/
def Abs.tick (k : Nat) (preferSetter : Bool) (a : Abs) : Step Abs :=
  if preferSetter then
    match a.setterStep with
    | .blocked => a.loopStep k
    | x => x
  else
    match a.loopStep k with
    | .blocked => a.setterStep
    | x => x

/-- A run on the observable quantities, as `Run.exec`. -/
def Abs.exec (k : Nat) (sched : Nat → Bool) : Nat → Abs → Option Abs
  | 0, a => some a
  | fuel + 1, a =>
    match a.tick k (sched fuel) with
    | .blocked => some a
    | .panic => none
    | .next a1 => Abs.exec k sched fuel a1

/-- The number of ticks a run can still make, at most. -/
def Abs.measure (a : Abs) : Nat :=
  4 * a.todo.length + 3 * a.pending.length +
    (match a.loop with | .got _ => 2 | .calling _ => 1 | _ => 0)

/-- The observable quantities `a` describe the run `r` of the scenario with
threshold `k`. -/
structure Rep (k : Nat) (a : Abs) (r : Run Nat Unit Nat) : Prop where
  cb : r.sys.callbacks 0 = countingCallback k 0
  comparator : r.prop.comparator = some (.basic inferInstance)
  changed : r.prop.changed = 0
  value : r.prop.value = a.value
  todo : r.todo = a.todo
  pending : r.pending = a.pending.map (fun v => ((0 : ListenerId), v))
  list : (r.sys.world.signals 0).listeners = if a.sub then [0] else []
  signal : (r.sys.world.listeners 0).signal = if a.sub then some 0 else none
  closed : (r.sys.world.listeners 0).channel.closed = a.closed
  loop : r.sys.loops 0 = a.loop
  user : r.sys.world.user = a.count
  calls : r.sys.calls = a.calls.map (fun v => ((0 : ListenerId), v))

/-- Two moves agree: both blocked, both a panic, or both a step to related
states. -/
def StepRel {α β : Type} (R : α → β → Prop) : Step α → Step β → Prop
  | .blocked, .blocked => True
  | .panic, .panic => True
  | .next a, .next b => R a b
  | _, _ => False

/-- The states the scenario with threshold `k` and last value `n` passes
through: before the first `Set`; while subscribed (`s1` between two `Set`,
`s2` snapshot taken, `s3` value handed over, `s4` next snapshot taken before
the test, `c3` and `c4` the same after the test and before the call); and
after the callback has unsubscribed (`u1`..`u4`,
the last one after the goroutine has discarded a late value and left). -/
inductive Phase (k n : Nat) : Abs → Prop where
  | start : Phase k n ⟨0, List.range' 0 (n + 1), [], true, false, .receiving, 0, []⟩
  | s1 (m : Nat) (hm : m < k) (hn : m ≤ n) :
      Phase k n ⟨m, List.range' (m + 1) (n - m), [], true, false, .receiving, m,
        List.range' 1 m⟩
  | s2 (m : Nat) (hm : m < k) (hn : m + 1 ≤ n) :
      Phase k n ⟨m + 1, List.range' (m + 2) (n - (m + 1)), [m + 1], true, false, .receiving, m,
        List.range' 1 m⟩
  | s3 (m : Nat) (hm : m < k) (hn : m + 1 ≤ n) :
      Phase k n ⟨m + 1, List.range' (m + 2) (n - (m + 1)), [], true, false, .got (m + 1), m,
        List.range' 1 m⟩
  | s4 (m : Nat) (hm : m < k) (hn : m + 2 ≤ n) :
      Phase k n ⟨m + 2, List.range' (m + 3) (n - (m + 2)), [m + 2], true, false, .got (m + 1), m,
        List.range' 1 m⟩
  | c3 (m : Nat) (hm : m < k) (hn : m + 1 ≤ n) :
      Phase k n ⟨m + 1, List.range' (m + 2) (n - (m + 1)), [], true, false, .calling (m + 1), m,
        List.range' 1 m⟩
  | c4 (m : Nat) (hm : m < k) (hn : m + 2 ≤ n) :
      Phase k n ⟨m + 2, List.range' (m + 3) (n - (m + 2)), [m + 2], true, false,
        .calling (m + 1), m, List.range' 1 m⟩
  | u1 (m : Nat) (hm : k ≤ m) (hn : m ≤ n) :
      Phase k n ⟨m, List.range' (m + 1) (n - m), [], false, false, .receiving, k,
        List.range' 1 k⟩
  | u2 (m : Nat) (hm : k < m) (hn : m ≤ n) :
      Phase k n ⟨m, List.range' (m + 1) (n - m), [m], false, false, .receiving, k,
        List.range' 1 k⟩
  | u3 (m v : Nat) (hm : k < m) (hn : m ≤ n) :
      Phase k n ⟨m, List.range' (m + 1) (n - m), [], false, false, .got v, k,
        List.range' 1 k⟩
  | u4 (m : Nat) (hm : k < m) (hn : m ≤ n) :
      Phase k n ⟨m, List.range' (m + 1) (n - m), [], false, true, .exited, k,
        List.range' 1 k⟩

/-! ## Well-formed heaps -/

/-- Every listener in the list of `s` has an open channel. -/
def Signal.Open (s : SignalId) (w : World T σ) : Prop :=
  ∀ l ∈ (w.signals s).listeners, (w.listeners l).channel.closed = false

/-- The heap invariant of the library: no list holds a listener twice, and a
listener in the list of `s` has back-reference `s` and an open channel. -/
structure World.Inv (w : World T σ) : Prop where
  nodup : ∀ s, (w.signals s).listeners.Nodup
  backref : ∀ s, ∀ l ∈ (w.signals s).listeners, (w.listeners l).signal = some s
  chanOpen : ∀ s, Signal.Open s w

/-- A property as the constructors leave it: the comparator is set. -/
def BaseProperty.Built (p : BaseProperty T O) : Prop :=
  p.comparator.isSome = true

/-! ## One-shot subscription -/

/-- `func (s *Signal[T]) SubscribeOnce(callback func(T)) *Listener[T]`: the
variable `listener` captured by the closure holds the listener that
`Subscribe` returns, which is the next one to be allocated. -/
def Signal.SubscribeOnce (s : SignalId) (callback : T → World T σ → World T σ)
    (sys : Sys T σ) : ListenerId × Sys T σ :=
  let listener := sys.world.nextListener
  Signal.Subscribe s (fun v w => Listener.Unsubscribe listener (callback v w)) sys

/-- The scenario of `TestSimpleIntPropertySubscribeOnce`: a property created
with `v0`, one listener subscribed with `SubscribeOnce` and a callback that
counts its calls, and a caller about to set the values `vs`. Returns the
listener and the run. -/
def subscribeOnceScenario (v0 : Nat) (vs : List Nat) : ListenerId × Run Nat Unit Nat :=
  let pw := NewBasicProperty (O := Unit) v0 (World.empty 0)
  let sys0 : Sys Nat Nat := { (Sys.empty 0 : Sys Nat Nat) with world := pw.2 }
  let ls := Signal.SubscribeOnce pw.1.ChangedSignal
    (fun _ w => { w with user := w.user + 1 }) sys0
  (ls.1, { sys := ls.2, prop := pw.1, todo := vs, pending := [] })

/-- A callback that counts its calls in the user variable. -/
def countCalls (_v : Nat) (w : World Nat Nat) : World Nat Nat :=
  { w with user := w.user + 1 }

/-- The state of the one-shot scenario with values 42, 12, 66 after the first
`Set` has handed 42 to the listener goroutine. -/
def onceGotState : Sys Nat Nat :=
  match Run.exec 0 (fun _ => true) 2 (subscribeOnceScenario 0 [42, 12, 66]).2 with
  | some r => r.sys
  | none => Sys.empty 0

/-- The states the one-shot scenario passes through, `e` being the value the
callback is to be called with (none when no `Set` changes the value) and `f`
the last value set: `o1`..`o4`, `c3`, `c4` before the callback has run (as
`s1`..`s4`, `c3`, `c4` of `Phase`), `p1`..`p4` after it has run and unsubscribed
the listener. -/
inductive OncePhase (e : Option Nat) (f : Nat) : Abs → Prop where
  | o1 (m : Nat) (rest : List Nat) (he : (transitions m rest).head? = e)
      (hf : rest.getLast?.getD m = f) :
      OncePhase e f ⟨m, rest, [], true, false, .receiving, 0, []⟩
  | o2 (m : Nat) (rest : List Nat) (he : e = some m) (hf : rest.getLast?.getD m = f) :
      OncePhase e f ⟨m, rest, [m], true, false, .receiving, 0, []⟩
  | o3 (m u : Nat) (rest : List Nat) (he : e = some u) (hf : rest.getLast?.getD m = f) :
      OncePhase e f ⟨m, rest, [], true, false, .got u, 0, []⟩
  | o4 (m u : Nat) (rest : List Nat) (he : e = some u) (hf : rest.getLast?.getD m = f) :
      OncePhase e f ⟨m, rest, [m], true, false, .got u, 0, []⟩
  | c3 (m u : Nat) (rest : List Nat) (he : e = some u) (hf : rest.getLast?.getD m = f) :
      OncePhase e f ⟨m, rest, [], true, false, .calling u, 0, []⟩
  | c4 (m u : Nat) (rest : List Nat) (he : e = some u) (hf : rest.getLast?.getD m = f) :
      OncePhase e f ⟨m, rest, [m], true, false, .calling u, 0, []⟩
  | p1 (m u : Nat) (rest : List Nat) (he : e = some u) (hf : rest.getLast?.getD m = f) :
      OncePhase e f ⟨m, rest, [], false, false, .receiving, 1, [u]⟩
  | p2 (m u : Nat) (rest : List Nat) (he : e = some u) (hf : rest.getLast?.getD m = f) :
      OncePhase e f ⟨m, rest, [m], false, false, .receiving, 1, [u]⟩
  | p3 (m u x : Nat) (rest : List Nat) (he : e = some u) (hf : rest.getLast?.getD m = f) :
      OncePhase e f ⟨m, rest, [], false, false, .got x, 1, [u]⟩
  | p4 (m u : Nat) (rest : List Nat) (he : e = some u) (hf : rest.getLast?.getD m = f) :
      OncePhase e f ⟨m, rest, [], false, true, .exited, 1, [u]⟩

/-! ## Sequences of calls -/

/-- What the callbacks of the tests do: write the user variables, and call
`Unsubscribe()` on listeners. -/
structure UserCallback (T : Type) (σ : Type) where
  /-- the new user variables -/
  update : T → σ → σ
  /-- the listeners it unsubscribes, in order -/
  unsubscribes : T → σ → List ListenerId

/-- Running a user callback on the world. -/
def UserCallback.run (cb : UserCallback T σ) (v : T) (w : World T σ) : World T σ :=
  (cb.unsubscribes v w.user).foldl (fun w1 l => Listener.Unsubscribe l w1)
    { w with user := cb.update v w.user }

/-- What can happen to a property and its signal: the calls of the public
methods, and the two moves of a listener goroutine (a value is handed to it
by some `Emit`; it runs one step of its loop). -/
inductive Op (T : Type) (O : Type) (σ : Type) where
  | get
  | equals (v : Any T O)
  | changedSignal
  | set (v : T)
  | emit (v : T)
  | subscribe (cb : UserCallback T σ)
  | subscribeOnce (cb : UserCallback T σ)
  | unsubscribe (l : ListenerId)
  | handOver (l : ListenerId) (v : T)
  | loop (l : ListenerId)

/-- The effect of one `Op` on the property and the system; `none` when the
call panics or the move is not possible in this state. `Set` and `Emit` run
to their end (every send recorded in `sent`); the goroutines take their
values by `handOver`, which allows any value at any time. -/
def Op.apply : Op T O σ → BaseProperty T O × Sys T σ → Option (BaseProperty T O × Sys T σ)
  | .get, st => some st
  | .equals v, st =>
    match st.1.Equals v with
    | none => none
    | some _ => some st
  | .changedSignal, st => some st
  | .set v, st =>
    match st.1.Set v st.2.world with
    | none => none
    | some (p1, w1) => some (p1, { st.2 with world := w1 })
  | .emit v, st =>
    match Signal.Emit st.1.ChangedSignal v st.2.world with
    | none => none
    | some w1 => some (st.1, { st.2 with world := w1 })
  | .subscribe cb, st => some (st.1, (Signal.Subscribe st.1.ChangedSignal cb.run st.2).2)
  | .subscribeOnce cb, st => some (st.1, (Signal.SubscribeOnce st.1.ChangedSignal cb.run st.2).2)
  | .unsubscribe l, st => some (st.1, { st.2 with world := Listener.Unsubscribe l st.2.world })
  | .handOver l v, st =>
    match st.2.loops l with
    | .receiving =>
      if (st.2.world.listeners l).channel.closed then none
      else some (st.1, { st.2 with loops := Function.update st.2.loops l (.got v) })
    | _ => none
  | .loop l, st =>
    match st.2.loopStep l with
    | .next sys1 => some (st.1, sys1)
    | _ => none

/-- A sequence of `Op`, from left to right. -/
def applyAll : List (Op T O σ) → BaseProperty T O × Sys T σ →
    Option (BaseProperty T O × Sys T σ)
  | [], st => some st
  | op :: ops, st =>
    match op.apply st with
    | none => none
    | some st1 => applyAll ops st1

/-- The state `st` is reached from `init` by some sequence of `Op`. -/
def Reachable (init st : BaseProperty T O × Sys T σ) : Prop :=
  ∃ ops : List (Op T O σ), applyAll ops init = some st

/-- A property as a constructor returns it, with no goroutine running. -/
def startState (pw : BaseProperty T O × World T σ) : BaseProperty T O × Sys T σ :=
  (pw.1, { (Sys.empty pw.2.user : Sys T σ) with world := pw.2 })

/-- The state is the result of `NewBasicProperty` or `NewComparableProperty`
in an empty heap. -/
def Constructed (init : BaseProperty T O × Sys T σ) : Prop :=
  (∃ (inst : GoComparable T) (v : T) (u : σ),
      init = startState (@NewBasicProperty T O σ inst v (World.empty u))) ∨
  (∃ (tEquals : T → Any T O → Bool) (v : T) (u : σ),
      init = startState (NewComparableProperty tEquals v (World.empty u)))

/-- What a callback may do to the world: it allocates nothing, keeps a
well-formed heap well-formed, adds no listener to a list and restores no
back-reference. -/
structure World.Frame (w w1 : World T σ) : Prop where
  next : w1.nextListener = w.nextListener
  inv : w.Inv → w1.Inv
  shrink : ∀ s, ∀ l ∈ (w1.signals s).listeners, l ∈ (w.signals s).listeners
  cleared : ∀ l, (w.listeners l).signal = none → (w1.listeners l).signal = none

/-- The invariant of the system: the heap is well-formed, listed listeners
have been allocated, and the registered callbacks respect `World.Frame`. -/
structure Sys.Good (sys : Sys T σ) : Prop where
  inv : sys.world.Inv
  alloc : ∀ s, ∀ l ∈ (sys.world.signals s).listeners, l < sys.world.nextListener
  callbacks : ∀ l v w, World.Frame w (sys.callbacks l v w)

/-- From `sys` to `sys1` no listener is lost and no cleared back-reference of
an allocated listener is restored. -/
structure Sys.Later (sys sys1 : Sys T σ) : Prop where
  next : sys.world.nextListener ≤ sys1.world.nextListener
  cleared : ∀ l, l < sys.world.nextListener → (sys.world.listeners l).signal = none →
    (sys1.world.listeners l).signal = none

/-- A callback that counts its calls and unsubscribes nothing. -/
def countingUser : UserCallback Nat Nat :=
  { update := fun _ u => u + 1, unsubscribes := fun _ _ => [] }

/-- A property created with 0 in an empty heap. -/
def demoStart : BaseProperty Nat Unit × Sys Nat Nat :=
  startState (NewBasicProperty 0 (World.empty 0))

/-- A sequence of calls and goroutine moves: two subscriptions (the second one
one-shot), a `Set` whose value both goroutines take and deliver, an
`Unsubscribe` of the first listener, a third subscription, and some reads. -/
def demoOps : List (Op Nat Unit Nat) :=
  [.subscribe countingUser, .subscribeOnce countingUser, .set 42, .handOver 0 42,
   .handOver 1 42, .loop 0, .loop 0, .loop 1, .loop 1, .unsubscribe 0,
   .subscribe countingUser, .get, .equals (.val 42), .changedSignal, .emit 7]

/-- The state after `demoOps`. -/
def demoState : BaseProperty Nat Unit × Sys Nat Nat :=
  (applyAll demoOps demoStart).getD demoStart

/-- Calls that follow `demoState`: a new subscription, a `Set`, a one-shot
subscription, an `Emit` and a second `Unsubscribe` of listener 0. -/
def demoLaterOps : List (Op Nat Unit Nat) :=
  [.subscribe countingUser, .set 5, .subscribeOnce countingUser, .emit 9, .unsubscribe 0]

/-- The state after `demoLaterOps`. -/
def demoLaterState : BaseProperty Nat Unit × Sys Nat Nat :=
  (applyAll demoLaterOps demoState).getD demoState

/-- Reads and subscriptions that follow `demoState`, with no `Set` among them. -/
def demoReadOps : List (Op Nat Unit Nat) :=
  [.get, .equals (.val 3), .subscribe countingUser, .emit 9, .unsubscribe 2]

/-- The state after `demoReadOps`. -/
def demoReadState : BaseProperty Nat Unit × Sys Nat Nat :=
  (applyAll demoReadOps demoState).getD demoState

/-- The state after `demoOps` on a property whose value type never judges two
values equal. -/
def demoComparableState : BaseProperty Nat Unit × Sys Nat Nat :=
  (applyAll demoOps (startState (NewComparableProperty dummyEquals 0 (World.empty 0)))).getD
    demoStart

/-- The state after `demoReadOps` from `demoComparableState`. -/
def demoComparableReadState : BaseProperty Nat Unit × Sys Nat Nat :=
  (applyAll demoReadOps demoComparableState).getD demoStart

/-- The values the callback of listener `l` has been invoked with, in order. -/
def callsOf (l : ListenerId) (calls : List (ListenerId × T)) : List T :=
  (calls.filter (fun c => c.1 == l)).map Prod.snd

/-- A subscription, a `Set` whose value the goroutine of the listener takes,
the test `listener.signal == nil` of the goroutine, and then, before the
goroutine goes on to the call, an `Unsubscribe` of the listener from the
caller. -/
def raceOps : List (Op Nat Unit Nat) :=
  [.subscribe countingUser, .set 42, .handOver 0 42, .loop 0, .unsubscribe 0]

/-- The state after `raceOps`. -/
def raceState : BaseProperty Nat Unit × Sys Nat Nat :=
  (applyAll raceOps demoStart).getD demoStart

/-- What follows `raceState`: the goroutine goes on, new values are set and a
new listener is subscribed and served. -/
def raceLaterOps : List (Op Nat Unit Nat) :=
  [.set 5, .loop 0, .set 6, .subscribe countingUser, .set 7, .handOver 1 7, .loop 1, .loop 1]

/-- The state after `raceLaterOps`. -/
def raceLaterState : BaseProperty Nat Unit × Sys Nat Nat :=
  (applyAll raceLaterOps raceState).getD demoStart

/-! ## Basic facts -/

theorem removeFirst_eq_erase (l : ListenerId) (ls : List ListenerId) :
    removeFirst l ls = ls.erase l := by
  induction ls with
  | nil => rfl
  | cons a rest ih =>
    by_cases h : a = l
    · simp [removeFirst, h]
    · simp [removeFirst, h, ih, List.erase_cons_tail]

theorem removeFirst_of_not_mem (l : ListenerId) (ls : List ListenerId) (h : l ∉ ls) :
    removeFirst l ls = ls := by
  rw [removeFirst_eq_erase]; exact List.erase_of_not_mem h

theorem removeFirst_nodup (l : ListenerId) (ls : List ListenerId) (h : ls.Nodup) :
    removeFirst l ls = ls.filter (fun x => decide (x ≠ l)) := by
  rw [removeFirst_eq_erase, h.erase_eq_filter]
  apply List.filter_congr
  intro x _
  by_cases hx : x = l <;> simp [hx]

theorem sendAll_open (v : T) (ls : List ListenerId) (w : World T σ)
    (h : ∀ l ∈ ls, (w.listeners l).channel.closed = false) :
    sendAll v ls w = some { w with sent := w.sent ++ ls.map (fun l => (l, v)) } := by
  induction ls generalizing w with
  | nil => simp [sendAll]
  | cons a rest ih =>
    have ha : (w.listeners a).channel.closed = false := h a (List.mem_cons_self _ _)
    simp only [sendAll, chanSend, ha, Bool.false_eq_true, if_false]
    rw [ih]
    · simp [List.append_assoc]
    · intro l hl
      exact h l (List.mem_cons_of_mem _ hl)

theorem Emit_open (s : SignalId) (v : T) (w : World T σ) (h : Signal.Open s w) :
    Signal.Emit s v w =
      some { w with emitted := w.emitted ++ [(s, v)]
                    sent := w.sent ++ (w.signals s).listeners.map (fun l => (l, v)) } := by
  unfold Signal.Emit Signal.snapshot
  rw [sendAll_open]
  exact h

theorem Built_equals_cases (p : BaseProperty T O) (h : p.Built) (v : Any T O) :
    (∃ eq, p.Equals v = some eq) ∨
    (p.Equals v = none ∧
      ∃ g, p.comparator = some (.basic g) ∧ @BasicProperty.Equals T O g p v = none) := by
  unfold BaseProperty.Built at h
  cases hc : p.comparator with
  | none => simp [hc] at h
  | some c =>
    cases c with
    | comparable tEquals =>
      exact Or.inl ⟨tEquals p.value v,
        by simp [BaseProperty.Equals, hc, ComparableProperty.Equals]⟩
    | basic g =>
      have he : p.Equals v = @BasicProperty.Equals T O g p v := by
        simp [BaseProperty.Equals, hc]
      cases hb : @BasicProperty.Equals T O g p v with
      | none => exact Or.inr ⟨by rw [he, hb], g, rfl, hb⟩
      | some b => exact Or.inl ⟨b, by rw [he, hb]⟩

theorem Set_none (p : BaseProperty T O) (v : T) (w : World T σ)
    (he : p.Equals (.val v) = none) : p.Set v w = none := by
  unfold BaseProperty.Set
  rw [he]

theorem Set_open (p : BaseProperty T O) (v : T) (w : World T σ) (eq : Bool)
    (he : p.Equals (.val v) = some eq) (h : Signal.Open p.changed w) :
    p.Set v w = some ({ p with value := v },
      if eq then w else
        { w with emitted := w.emitted ++ [(p.changed, v)]
                 sent := w.sent ++ (w.signals p.changed).listeners.map (fun l => (l, v)) }) := by
  unfold BaseProperty.Set
  rw [he]
  cases eq
  · simp [Emit_open _ _ _ h]
  · simp

theorem twoSubscribers_listeners :
    (twoSubscribers.2.world.signals twoSubscribers.1.changed).listeners = [0, 1] := by
  simp [twoSubscribers, Signal.Subscribe, Signal.addListener, NewBasicProperty,
    BaseProperty.ChangedSignal, World.empty, Sys.empty]

theorem twoSubscribers_open : Signal.Open twoSubscribers.1.changed twoSubscribers.2.world := by
  intro l hl
  rw [twoSubscribers_listeners] at hl
  simp only [List.mem_cons, List.mem_singleton, List.not_mem_nil, or_false] at hl
  rcases hl with h | h <;> subst h <;>
    simp [twoSubscribers, Signal.Subscribe, Signal.addListener, NewBasicProperty,
      BaseProperty.ChangedSignal, World.empty, Sys.empty, Function.update]

theorem twoSubscribers_built : twoSubscribers.1.Built := rfl

/-! ## Set, Get and Equals -/

/-- C1: for a constructed property and a heap whose listed listeners have open
channels, `Set(v)` calls `Emit` on the attached signal exactly once, with
argument `v`, when `Equals(v)` on the state before the call is false (the world
after `Set` is the one `Emit` returns, its trace of `Emit` calls longer by the
single entry `(signal, v)`), and does not call `Emit` when `Equals(v)` is true
(the world, the trace included, is untouched). `Equals(v)` gives no answer only
when the `==` of a BasicProperty panics, and then `Set(v)` panics with it. -/
theorem Set_calls_Emit_iff_not_Equals (p : BaseProperty T O) (w : World T σ) (v : T)
    (hb : p.Built) (hw : Signal.Open p.changed w) :
    (∃ eq, p.Equals (.val v) = some eq ∧
      (eq = false → ∃ w1, Signal.Emit p.changed v w = some w1 ∧
          p.Set v w = some ({ p with value := v }, w1) ∧
          w1.emitted = w.emitted ++ [(p.changed, v)]) ∧
      (eq = true → p.Set v w = some ({ p with value := v }, w))) ∨
    (p.Equals (.val v) = none ∧ p.Set v w = none ∧
      ∃ g, p.comparator = some (.basic g) ∧
        @BasicProperty.Equals T O g p (.val v) = none) := by
  rcases Built_equals_cases p hb (.val v) with ⟨eq, he⟩ | ⟨he, hg⟩
  · refine Or.inl ⟨eq, he, ?_, ?_⟩
    · intro h
      subst h
      refine ⟨_, Emit_open _ _ _ hw, ?_, rfl⟩
      rw [Set_open p v w false he hw]
      simp
    · intro h
      subst h
      rw [Set_open p v w true he hw]
      simp
  · exact Or.inr ⟨he, Set_none p v w he, hg⟩

theorem Set_calls_Emit_iff_not_Equals_witness :
    twoSubscribers.1.Built ∧ Signal.Open twoSubscribers.1.changed twoSubscribers.2.world ∧
    ((∃ eq, twoSubscribers.1.Equals (.val 42) = some eq ∧
      (eq = false → ∃ w1, Signal.Emit twoSubscribers.1.changed 42 twoSubscribers.2.world = some w1 ∧
          twoSubscribers.1.Set 42 twoSubscribers.2.world =
            some ({ twoSubscribers.1 with value := 42 }, w1) ∧
          w1.emitted = twoSubscribers.2.world.emitted ++ [(twoSubscribers.1.changed, 42)]) ∧
      (eq = true → twoSubscribers.1.Set 42 twoSubscribers.2.world =
            some ({ twoSubscribers.1 with value := 42 }, twoSubscribers.2.world))) ∨
    (twoSubscribers.1.Equals (.val 42) = none ∧
      twoSubscribers.1.Set 42 twoSubscribers.2.world = none ∧
      ∃ g, twoSubscribers.1.comparator = some (.basic g) ∧
        @BasicProperty.Equals Nat Unit g twoSubscribers.1 (.val 42) = none)) :=
  ⟨twoSubscribers_built, twoSubscribers_open,
    Set_calls_Emit_iff_not_Equals twoSubscribers.1 twoSubscribers.2.world 42
      twoSubscribers_built twoSubscribers_open⟩

/-- C2: for a constructed property and a heap whose listed listeners have open
channels, `Set(v)` returns and the next `Get()` is exactly `v`, whatever the
equality strategy answered for `v`; `Set(v)` does not return only when the
`==` of a BasicProperty panics on `v`. -/
theorem Get_after_Set (p : BaseProperty T O) (w : World T σ) (v : T)
    (hb : p.Built) (hw : Signal.Open p.changed w) :
    (∃ p1 w1, p.Set v w = some (p1, w1) ∧ p1.Get = v) ∨
    (p.Set v w = none ∧
      ∃ g, p.comparator = some (.basic g) ∧
        @BasicProperty.Equals T O g p (.val v) = none) := by
  rcases Built_equals_cases p hb (.val v) with ⟨eq, he⟩ | ⟨he, hg⟩
  · exact Or.inl ⟨_, _, Set_open p v w eq he hw, rfl⟩
  · exact Or.inr ⟨Set_none p v w he, hg⟩

theorem Get_after_Set_witness :
    (NewComparableProperty firstEquals (1, 2) (World.empty ())).1.Built ∧
    Signal.Open (NewComparableProperty firstEquals (1, 2) (World.empty ())).1.changed
      (NewComparableProperty firstEquals (1, 2) (World.empty ())).2 ∧
    ((∃ p1 w1, (NewComparableProperty firstEquals (1, 2) (World.empty ())).1.Set (1, 7)
        (NewComparableProperty firstEquals (1, 2) (World.empty ())).2 = some (p1, w1) ∧
      p1.Get = (1, 7)) ∨
    ((NewComparableProperty firstEquals (1, 2) (World.empty ())).1.Set (1, 7)
        (NewComparableProperty firstEquals (1, 2) (World.empty ())).2 = none ∧
      ∃ g, (NewComparableProperty firstEquals (1, 2) (World.empty ())).1.comparator
          = some (.basic g) ∧
        @BasicProperty.Equals (Nat × Nat) Unit g
          (NewComparableProperty firstEquals (1, 2) (World.empty ())).1 (.val (1, 7)) = none)) :=
  ⟨rfl, by intro l hl; simp [NewComparableProperty, World.empty] at hl,
    Get_after_Set _ _ (1, 7) rfl
      (by intro l hl; simp [NewComparableProperty, World.empty] at hl)⟩

theorem Open_congr (s : SignalId) (w w1 : World T σ) (hs : w1.signals = w.signals)
    (hl : w1.listeners = w.listeners) (h : Signal.Open s w) : Signal.Open s w1 := by
  intro l hmem
  rw [hs] at hmem
  rw [hl]
  exact h l hmem

theorem basic_equals [g : GoComparable T] (p : BaseProperty T O)
    (hc : p.comparator = some (.basic g)) (v : T) :
    p.Equals (.val v) = if g.asserts v then g.eq p.value v else some false := by
  simp [BaseProperty.Equals, hc, BasicProperty.Equals]

theorem strict_equals [DecidableEq T] (p : BaseProperty T O)
    (hc : p.comparator = some (.basic GoComparable.strict)) (v : T) :
    p.Equals (.val v) = some (decide (p.value = v)) := by
  simp [BaseProperty.Equals, hc, BasicProperty.Equals, GoComparable.strict]

/-- C3, as stated, fails: on a property created with 0, `Set(0)` followed by
`Set(0)` emits no notification at all (not one); on a property whose value
type never judges two values equal, `Set(5)` followed by `Set(5)` emits two;
and on a BasicProperty over `float64`, `Set(NaN)` followed by `Set(NaN)` emits
two, NaN not being `==` to itself. -/
theorem Set_twice_counterexample :
    (((NewBasicProperty 0 (World.empty ())).1 : BaseProperty Nat Unit).SetAll [0, 0]
        (NewBasicProperty (O := Unit) 0 (World.empty ())).2).map (fun r => r.2.emitted)
      = some [] ∧
    ((NewComparableProperty dummyEquals 0 (World.empty ())).1.SetAll [5, 5]
        (NewComparableProperty dummyEquals 0 (World.empty ())).2).map (fun r => r.2.emitted)
      = some [(0, 5), (0, 5)] ∧
    (((NewBasicProperty (GoFloat.num 0) (World.empty ())).1 :
        BaseProperty GoFloat Unit).SetAll [GoFloat.nan, GoFloat.nan]
        (NewBasicProperty (O := Unit) (GoFloat.num 0) (World.empty ())).2).map
        (fun r => r.2.emitted)
      = some [(0, GoFloat.nan), (0, GoFloat.nan)] := by
  refine ⟨?_, ?_, ?_⟩ <;> rfl

/-- C3, amended: for a constructed property and a value `a` that `Equals`
judges equal to itself once `a` is the current value, `Set(a)` followed by
`Set(a)` emits exactly one notification in total when the first `Set` finds
`a` different from the current value and none when it finds it equal; the
second `Set` never emits. (When the first comparison panics, which only the
`==` of a BasicProperty can do, so does the first `Set`.) -/
theorem Set_twice_emits_at_most_once (p : BaseProperty T O) (w : World T σ) (a : T)
    (hb : p.Built) (hw : Signal.Open p.changed w)
    (hrefl : ({ p with value := a } : BaseProperty T O).Equals (.val a) = some true) :
    (∃ eq p2 w2, p.Equals (.val a) = some eq ∧ p.SetAll [a, a] w = some (p2, w2) ∧
      p2.Get = a ∧
      w2.emitted = w.emitted ++ (if eq then [] else [(p.changed, a)])) ∨
    (p.Equals (.val a) = none ∧ p.SetAll [a, a] w = none ∧
      ∃ g, p.comparator = some (.basic g) ∧
        @BasicProperty.Equals T O g p (.val a) = none) := by
  rcases Built_equals_cases p hb (.val a) with ⟨eq, he⟩ | ⟨he, hg⟩
  · left
    have h1 := Set_open p a w eq he hw
    cases eq
    · have hw1 : Signal.Open p.changed
          ({ w with emitted := w.emitted ++ [(p.changed, a)]
                    sent := w.sent ++ (w.signals p.changed).listeners.map (fun l => (l, a)) } :
            World T σ) := Open_congr _ w _ rfl rfl hw
      have h2 := Set_open { p with value := a } a _ true hrefl hw1
      refine ⟨false, { p with value := a },
        ({ w with emitted := w.emitted ++ [(p.changed, a)]
                  sent := w.sent ++ (w.signals p.changed).listeners.map (fun l => (l, a)) } :
            World T σ), he, ?_, rfl, ?_⟩
      · simp only [BaseProperty.SetAll, h1, Bool.false_eq_true, if_false, h2, if_true]
      · simp
    · have h2 := Set_open { p with value := a } a w true hrefl hw
      refine ⟨true, { p with value := a }, w, he, ?_, rfl, ?_⟩
      · simp only [BaseProperty.SetAll, h1, if_true, h2]
      · simp
  · right
    refine ⟨he, ?_, hg⟩
    simp only [BaseProperty.SetAll, Set_none p a w he]

theorem Set_twice_emits_at_most_once_witness :
    twoSubscribers.1.Built ∧ Signal.Open twoSubscribers.1.changed twoSubscribers.2.world ∧
    ({ twoSubscribers.1 with value := 42 } : BaseProperty Nat Unit).Equals (.val 42) = some true ∧
    ((∃ eq p2 w2, twoSubscribers.1.Equals (.val 42) = some eq ∧
      twoSubscribers.1.SetAll [42, 42] twoSubscribers.2.world = some (p2, w2) ∧
      p2.Get = 42 ∧
      w2.emitted = twoSubscribers.2.world.emitted ++
        (if eq then [] else [(twoSubscribers.1.changed, 42)])) ∨
    (twoSubscribers.1.Equals (.val 42) = none ∧
      twoSubscribers.1.SetAll [42, 42] twoSubscribers.2.world = none ∧
      ∃ g, twoSubscribers.1.comparator = some (.basic g) ∧
        @BasicProperty.Equals Nat Unit g twoSubscribers.1 (.val 42) = none)) :=
  ⟨twoSubscribers_built, twoSubscribers_open, rfl,
    Set_twice_emits_at_most_once twoSubscribers.1 twoSubscribers.2.world 42
      twoSubscribers_built twoSubscribers_open rfl⟩

theorem goTransitions_strict [DecidableEq T] (prev : T) (vs : List T) :
    @goTransitions T GoComparable.strict prev vs = some (transitions prev vs) := by
  induction vs generalizing prev with
  | nil => rfl
  | cons v rest ih =>
    by_cases hv : prev = v
    · subst hv
      simp [goTransitions, transitions, GoComparable.strict, ih]
    · have hv2 : ¬ v = prev := fun h => hv h.symm
      simp [goTransitions, transitions, GoComparable.strict, ih, hv, hv2]

/-- C4, as stated, fails: on a BasicProperty over `float64` created with 0,
`Set(NaN)` followed by `Set(NaN)` emits NaN twice, although the second `Set`
repeats the current value; on one over `any` created with the `int` 0,
`Set(nil)` followed by `Set(nil)` emits nil twice, the type assertion failing
on nil; and on one over `any` created with a slice, `Set` of a slice panics
in `==` and emits nothing. -/
theorem SetAll_emits_transitions_counterexample :
    (((NewBasicProperty (GoFloat.num 0) (World.empty ())).1 :
        BaseProperty GoFloat Unit).SetAll [GoFloat.nan, GoFloat.nan]
        (NewBasicProperty (O := Unit) (GoFloat.num 0) (World.empty ())).2).map
        (fun r => r.2.emitted)
      = some [(0, GoFloat.nan), (0, GoFloat.nan)] ∧
    transitions (GoFloat.num 0) [GoFloat.nan, GoFloat.nan] = [GoFloat.nan] ∧
    (((NewBasicProperty (GoAny.int 0) (World.empty ())).1 :
        BaseProperty GoAny Unit).SetAll [GoAny.nil, GoAny.nil]
        (NewBasicProperty (O := Unit) (GoAny.int 0) (World.empty ())).2).map
        (fun r => r.2.emitted)
      = some [(0, GoAny.nil), (0, GoAny.nil)] ∧
    transitions (GoAny.int 0) [GoAny.nil, GoAny.nil] = [GoAny.nil] ∧
    ((NewBasicProperty (GoAny.slice [1]) (World.empty ())).1 :
        BaseProperty GoAny Unit).SetAll [GoAny.slice [2]]
        (NewBasicProperty (O := Unit) (GoAny.slice [1]) (World.empty ())).2 = none := by
  refine ⟨?_, ?_, ?_, ?_, ?_⟩ <;> rfl

theorem SetAll_of_basic [g : GoComparable T] (p : BaseProperty T O)
    (vs : List T) (w : World T σ) (hc : p.comparator = some (.basic g))
    (hw : Signal.Open p.changed w) :
    (goTransitions p.value vs = none → p.SetAll vs w = none) ∧
    (∀ ts, goTransitions p.value vs = some ts →
      ∃ p1 w1, p.SetAll vs w = some (p1, w1) ∧
        w1.emitted = w.emitted ++ ts.map (fun v => (p.changed, v)) ∧
        w1.sent = w.sent ++ ts.flatMap
          (fun v => (w.signals p.changed).listeners.map (fun l => (l, v))) ∧
        p1.Get = vs.getLast?.getD p.value) ∧
    (∀ inst : DecidableEq T, g = @GoComparable.strict T inst →
      goTransitions p.value vs = some (@transitions T inst p.value vs)) := by
  refine ⟨?_, ?_, ?_⟩
  · induction vs generalizing p w with
    | nil => intro h; simp [goTransitions] at h
    | cons v rest ih =>
      intro h
      have he := basic_equals p hc v
      cases hcmp : (if g.asserts v then g.eq p.value v else some false) with
      | none =>
        rw [hcmp] at he
        simp only [BaseProperty.SetAll, Set_none p v w he]
      | some b =>
        rw [hcmp] at he
        have hset := Set_open p v w b he hw
        cases b
        · have hw1 : Signal.Open p.changed
              ({ w with emitted := w.emitted ++ [(p.changed, v)]
                        sent := w.sent ++
                          (w.signals p.changed).listeners.map (fun l => (l, v)) } :
                World T σ) := Open_congr _ w _ rfl rfl hw
          have hrest : goTransitions v rest = none := by
            cases hr : goTransitions v rest with
            | none => rfl
            | some ts => simp [goTransitions, hcmp, hr] at h
          simp only [BaseProperty.SetAll, hset, Bool.false_eq_true, if_false]
          exact ih { p with value := v } _ hc hw1 hrest
        · have hrest : goTransitions v rest = none := by
            simpa [goTransitions, hcmp] using h
          simp only [BaseProperty.SetAll, hset, if_true]
          exact ih { p with value := v } w hc hw hrest
  · induction vs generalizing p w with
    | nil =>
      intro ts h
      simp only [goTransitions, Option.some.injEq] at h
      subst h
      exact ⟨p, w, rfl, by simp, by simp, rfl⟩
    | cons v rest ih =>
      intro ts h
      have he := basic_equals p hc v
      cases hcmp : (if g.asserts v then g.eq p.value v else some false) with
      | none => simp [goTransitions, hcmp] at h
      | some b =>
        rw [hcmp] at he
        have hset := Set_open p v w b he hw
        cases b
        · have hw1 : Signal.Open p.changed
              ({ w with emitted := w.emitted ++ [(p.changed, v)]
                        sent := w.sent ++
                          (w.signals p.changed).listeners.map (fun l => (l, v)) } :
                World T σ) := Open_congr _ w _ rfl rfl hw
          cases hr : goTransitions v rest with
          | none => simp [goTransitions, hcmp, hr] at h
          | some ts1 =>
            simp only [goTransitions, hcmp, hr, Option.some.injEq] at h
            subst h
            obtain ⟨p1, w1, h1, h2, h3, h4⟩ := ih { p with value := v } _ hc hw1 ts1 hr
            refine ⟨p1, w1, ?_, ?_, ?_, ?_⟩
            · simp only [BaseProperty.SetAll, hset, Bool.false_eq_true, if_false]
              exact h1
            · simpa [List.append_assoc] using h2
            · simpa [List.append_assoc] using h3
            · simpa [List.getLast?_cons] using h4
        · have hr : goTransitions v rest = some ts := by
            simpa [goTransitions, hcmp] using h
          obtain ⟨p1, w1, h1, h2, h3, h4⟩ := ih { p with value := v } w hc hw ts hr
          refine ⟨p1, w1, ?_, ?_, ?_, ?_⟩
          · simp only [BaseProperty.SetAll, hset, if_true]
            exact h1
          · simpa using h2
          · simpa using h3
          · simpa [List.getLast?_cons] using h4
  · intro inst hg
    subst hg
    exact goTransitions_strict p.value vs

/-- C4, amended: for the BasicProperty that `NewBasicProperty` returns for the
initial value `v0` and a list of values set in order by one caller: when one
of the comparisons panics the caller panics; otherwise the values emitted on
its signal are exactly those for which the comparison with the value before
(`v0` for the first), made as `Equals` makes it (type assertion, then `==`),
does not answer true, in order, each of them handed to every listener of the
signal in list order, and `Get()` is finally the last value set. For a `T`
whose `==` is an equality that cannot panic, these are the values that differ
from their predecessor: one notification per distinct transition, none for a
`Set` that repeats the current value. -/
theorem SetAll_emits_goTransitions [g : GoComparable T] (v0 : T) (w0 : World T σ)
    (vs : List T) (w : World T σ)
    (hw : Signal.Open ((NewBasicProperty v0 w0).1 : BaseProperty T O).changed w) :
    (goTransitions v0 vs = none →
      ((NewBasicProperty v0 w0).1 : BaseProperty T O).SetAll vs w = none) ∧
    (∀ ts, goTransitions v0 vs = some ts →
      ∃ p1 w1, ((NewBasicProperty v0 w0).1 : BaseProperty T O).SetAll vs w = some (p1, w1) ∧
        w1.emitted = w.emitted ++
          ts.map (fun v => (((NewBasicProperty v0 w0).1 : BaseProperty T O).changed, v)) ∧
        w1.sent = w.sent ++ ts.flatMap
          (fun v => (w.signals ((NewBasicProperty v0 w0).1 : BaseProperty T O).changed).listeners.map
            (fun l => (l, v))) ∧
        p1.Get = vs.getLast?.getD v0) ∧
    (∀ inst : DecidableEq T, g = @GoComparable.strict T inst →
      goTransitions v0 vs = some (@transitions T inst v0 vs)) :=
  SetAll_of_basic ((NewBasicProperty v0 w0).1 : BaseProperty T O) vs w rfl hw

theorem SetAll_emits_goTransitions_witness :
    Signal.Open ((NewBasicProperty 0 (World.empty 0)).1 : BaseProperty Nat Unit).changed
      twoSubscribers.2.world ∧
    ((goTransitions 0 [0, 42, 42, 7] = none →
      ((NewBasicProperty 0 (World.empty 0)).1 : BaseProperty Nat Unit).SetAll [0, 42, 42, 7]
        twoSubscribers.2.world = none) ∧
    (∀ ts, goTransitions 0 [0, 42, 42, 7] = some ts →
      ∃ p1 w1, ((NewBasicProperty 0 (World.empty 0)).1 : BaseProperty Nat Unit).SetAll
          [0, 42, 42, 7] twoSubscribers.2.world = some (p1, w1) ∧
        w1.emitted = twoSubscribers.2.world.emitted ++ ts.map (fun v =>
          (((NewBasicProperty 0 (World.empty 0)).1 : BaseProperty Nat Unit).changed, v)) ∧
        w1.sent = twoSubscribers.2.world.sent ++ ts.flatMap
          (fun v => (twoSubscribers.2.world.signals
            ((NewBasicProperty 0 (World.empty 0)).1 : BaseProperty Nat Unit).changed).listeners.map
            (fun l => (l, v))) ∧
        p1.Get = ([0, 42, 42, 7] : List Nat).getLast?.getD 0) ∧
    (∀ inst : DecidableEq Nat, (inferInstance : GoComparable Nat) = @GoComparable.strict Nat inst →
      goTransitions 0 [0, 42, 42, 7] = some (@transitions Nat inst 0 [0, 42, 42, 7]))) :=
  ⟨twoSubscribers_open,
    SetAll_emits_goTransitions 0 (World.empty 0) [0, 42, 42, 7] twoSubscribers.2.world
      twoSubscribers_open⟩

/-! ## Emit -/

/-- C5: when the listeners in the list of a signal have open channels,
`Emit(v)` returns, the values handed to channels by it are exactly `v` to each
entry of the list, once per entry and in list order (nothing goes to any other
listener), and the listener list and the listeners are unchanged; a `Set(v)`
that is a real change on a property with that signal does exactly this. -/
theorem Emit_hands_value_to_each_listener (s : SignalId) (v : T) (w : World T σ)
    (h : Signal.Open s w) :
    ∃ w1, Signal.Emit s v w = some w1 ∧
      w1.sent = w.sent ++ (w.signals s).listeners.map (fun l => (l, v)) ∧
      w1.signals = w.signals ∧ w1.listeners = w.listeners ∧
      ∀ p : BaseProperty T O, p.changed = s → p.Equals (.val v) = some false →
        p.Set v w = some ({ p with value := v }, w1) := by
  refine ⟨_, Emit_open s v w h, rfl, rfl, rfl, ?_⟩
  intro p hp he
  subst hp
  rw [Set_open p v w false he h]
  simp

theorem Emit_hands_value_to_each_listener_witness :
    Signal.Open twoSubscribers.1.changed twoSubscribers.2.world ∧
    ∃ w1, Signal.Emit twoSubscribers.1.changed 42 twoSubscribers.2.world = some w1 ∧
      w1.sent = twoSubscribers.2.world.sent ++
        (twoSubscribers.2.world.signals twoSubscribers.1.changed).listeners.map
          (fun l => (l, 42)) ∧
      w1.signals = twoSubscribers.2.world.signals ∧
      w1.listeners = twoSubscribers.2.world.listeners ∧
      ∀ p : BaseProperty Nat Unit, p.changed = twoSubscribers.1.changed →
        p.Equals (.val 42) = some false →
        p.Set 42 twoSubscribers.2.world = some ({ p with value := 42 }, w1) :=
  ⟨twoSubscribers_open,
    Emit_hands_value_to_each_listener twoSubscribers.1.changed 42 twoSubscribers.2.world
      twoSubscribers_open⟩

/-! ## Equality strategies -/

/-- C6, as stated, fails: on a BasicProperty over `any` whose current value is
a slice, `Equals` of a slice panics: the type assertion succeeds and the
comparison `p.value == v_` of two slices is a run-time panic. -/
theorem BasicProperty_Equals_counterexample :
    ((NewBasicProperty (GoAny.slice [1]) (World.empty ())).1 :
        BaseProperty GoAny Unit).Equals (.val (GoAny.slice [1])) = none ∧
    @BasicProperty.Equals GoAny Unit inferInstance
      (NewBasicProperty (GoAny.slice [1]) (World.empty ())).1 (.val (GoAny.slice [1])) = none := by
  constructor <;> rfl

/-- C6, amended: for a BasicProperty constructed by `NewBasicProperty` whose
current value is `c`, `Equals(v)` is false when `v` is of a mismatched type
(the type assertion fails), and when `v` has type `T` it is the result of
`c == v`: true exactly when `==` answers true, and a panic exactly when `==`
panics. So `Equals(v)` never fails for a `T` whose `==` cannot panic; and for
a `T` whose `==` is an equality it is true exactly when `v` has type `T` and
is equal to `c`. -/
theorem BasicProperty_Equals_follows_eq [g : GoComparable T] (c0 c : T) (w : World T σ)
    (v : Any T O) :
    (({ (NewBasicProperty c0 w).1 with value := c } : BaseProperty T O).Equals v =
      BasicProperty.Equals
        ({ (NewBasicProperty c0 w).1 with value := c } : BaseProperty T O) v) ∧
    (∀ o, v = .other o →
      ({ (NewBasicProperty c0 w).1 with value := c } : BaseProperty T O).Equals v
        = some false) ∧
    (∀ t, v = .val t → g.asserts t = false →
      ({ (NewBasicProperty c0 w).1 with value := c } : BaseProperty T O).Equals v
        = some false) ∧
    (∀ t, v = .val t → g.asserts t = true →
      ({ (NewBasicProperty c0 w).1 with value := c } : BaseProperty T O).Equals v
        = g.eq c t) ∧
    ((∀ a b, ∃ r, g.eq a b = some r) →
      ∃ r, ({ (NewBasicProperty c0 w).1 with value := c } : BaseProperty T O).Equals v
        = some r) ∧
    (∀ inst : DecidableEq T, g = @GoComparable.strict T inst →
      ∃ r, ({ (NewBasicProperty c0 w).1 with value := c } : BaseProperty T O).Equals v
        = some r ∧ (r = true ↔ v = .val c)) := by
  refine ⟨rfl, ?_, ?_, ?_, ?_, ?_⟩
  · intro o ho
    subst ho
    rfl
  · intro t ht ha
    subst ht
    simp [BaseProperty.Equals, NewBasicProperty, BasicProperty.Equals, ha]
  · intro t ht ha
    subst ht
    simp [BaseProperty.Equals, NewBasicProperty, BasicProperty.Equals, ha]
  · intro htot
    cases v with
    | other o => exact ⟨false, rfl⟩
    | val t =>
      by_cases ha : g.asserts t = true
      · obtain ⟨r, hr⟩ := htot c t
        exact ⟨r, by simp [BaseProperty.Equals, NewBasicProperty, BasicProperty.Equals, ha, hr]⟩
      · exact ⟨false, by simp [BaseProperty.Equals, NewBasicProperty, BasicProperty.Equals, ha]⟩
  · intro inst hg
    subst hg
    cases v with
    | other o => exact ⟨false, rfl, by simp⟩
    | val t =>
      refine ⟨decide (c = t), ?_, ?_⟩
      · simp [BaseProperty.Equals, NewBasicProperty, BasicProperty.Equals, GoComparable.strict]
      · simp only [decide_eq_true_eq, Any.val.injEq]
        exact eq_comm

/-- C7: for a ComparableProperty with current value `c`, `Equals(a)` is
`c.Equals(a)`: the current value is the receiver and the argument the
candidate. So `Set(v)` emits nothing (the world is untouched) when `c.Equals(v)`
is true, whatever the fields of `v`, and calls `Emit` exactly once, with `v`,
when it is false. -/
theorem ComparableProperty_Equals_delegates (tEquals : T → Any T O → Bool) (c : T)
    (s : SignalId) (w : World T σ) (v : T) (a : Any T O) (hw : Signal.Open s w) :
    (({ value := c, changed := s, comparator := some (.comparable tEquals) } :
        BaseProperty T O).Equals a = some (tEquals c a)) ∧
    (tEquals c (.val v) = true →
      ({ value := c, changed := s, comparator := some (.comparable tEquals) } :
        BaseProperty T O).Set v w =
        some ({ value := v, changed := s, comparator := some (.comparable tEquals) }, w)) ∧
    (tEquals c (.val v) = false →
      ∃ w1, ({ value := c, changed := s, comparator := some (.comparable tEquals) } :
        BaseProperty T O).Set v w =
        some ({ value := v, changed := s, comparator := some (.comparable tEquals) }, w1) ∧
        w1.emitted = w.emitted ++ [(s, v)]) := by
  refine ⟨rfl, ?_, ?_⟩
  · intro h
    rw [Set_open _ v w true (by simp [BaseProperty.Equals, ComparableProperty.Equals, h]) hw]
    simp
  · intro h
    refine ⟨({ w with emitted := w.emitted ++ [(s, v)]
                      sent := w.sent ++ (w.signals s).listeners.map (fun l => (l, v)) } :
              World T σ), ?_, rfl⟩
    rw [Set_open _ v w false (by simp [BaseProperty.Equals, ComparableProperty.Equals, h]) hw]
    simp

theorem ComparableProperty_Equals_delegates_witness :
    Signal.Open 0 (NewComparableProperty firstEquals (1, 2) (World.empty ())).2 ∧
    ((({ value := (1, 2), changed := 0, comparator := some (.comparable firstEquals) } :
        BaseProperty (Nat × Nat) Unit).Equals (.val (1, 7)) =
          some (firstEquals (1, 2) (.val (1, 7)))) ∧
    (firstEquals (1, 2) (.val (1, 7)) = true →
      ({ value := (1, 2), changed := 0, comparator := some (.comparable firstEquals) } :
        BaseProperty (Nat × Nat) Unit).Set (1, 7)
          (NewComparableProperty firstEquals (1, 2) (World.empty ())).2 =
        some ({ value := (1, 7), changed := 0, comparator := some (.comparable firstEquals) },
          (NewComparableProperty firstEquals (1, 2) (World.empty ())).2)) ∧
    (firstEquals (1, 2) (.val (1, 7)) = false →
      ∃ w1, ({ value := (1, 2), changed := 0, comparator := some (.comparable firstEquals) } :
        BaseProperty (Nat × Nat) Unit).Set (1, 7)
          (NewComparableProperty firstEquals (1, 2) (World.empty ())).2 =
        some ({ value := (1, 7), changed := 0, comparator := some (.comparable firstEquals) }, w1) ∧
        w1.emitted = (NewComparableProperty firstEquals (1, 2) (World.empty ())).2.emitted ++
          [(0, (1, 7))])) :=
  ⟨by intro l hl; simp [NewComparableProperty, World.empty] at hl,
    ComparableProperty_Equals_delegates firstEquals (1, 2) 0 _ (1, 7) (.val (1, 7))
      (by intro l hl; simp [NewComparableProperty, World.empty] at hl)⟩

/-! ## Unsubscribe -/

theorem Unsubscribe_of_signal (l : ListenerId) (s : SignalId) (w : World T σ)
    (h : (w.listeners l).signal = some s) :
    Listener.Unsubscribe l w =
      { w with signals := Function.update w.signals s ⟨removeFirst l (w.signals s).listeners⟩
               listeners := Function.update w.listeners l
                 { w.listeners l with signal := none } } := by
  simp [Listener.Unsubscribe, h, Signal.removeListener]

theorem Unsubscribe_of_nil (l : ListenerId) (w : World T σ)
    (h : (w.listeners l).signal = none) :
    Listener.Unsubscribe l w = w := by
  simp [Listener.Unsubscribe, h]

theorem Unsubscribe_signal_nil (l : ListenerId) (w : World T σ) :
    ((Listener.Unsubscribe l w).listeners l).signal = none := by
  cases h : (w.listeners l).signal with
  | none => rw [Unsubscribe_of_nil l w h]; exact h
  | some s => rw [Unsubscribe_of_signal l s w h]; simp

theorem Unsubscribe_inv (l : ListenerId) (w : World T σ) (hinv : w.Inv) :
    (Listener.Unsubscribe l w).Inv := by
  cases h : (w.listeners l).signal with
  | none => rw [Unsubscribe_of_nil l w h]; exact hinv
  | some s =>
    rw [Unsubscribe_of_signal l s w h]
    have hmem : ∀ s1 l1, l1 ∈ ((Function.update w.signals s
        ⟨removeFirst l (w.signals s).listeners⟩) s1).listeners →
        l1 ∈ (w.signals s1).listeners ∧ l1 ≠ l := by
      intro s1 l1 h1
      by_cases hs : s1 = s
      · subst hs
        simp only [Function.update_same] at h1
        rw [removeFirst_nodup l _ (hinv.nodup s1)] at h1
        simpa using h1
      · simp only [Function.update_noteq hs] at h1
        refine ⟨h1, ?_⟩
        intro hl
        subst hl
        have := hinv.backref s1 l1 h1
        rw [h] at this
        exact hs (Option.some.inj this).symm
    refine ⟨?_, ?_, ?_⟩
    · intro s1
      by_cases hs : s1 = s
      · subst hs
        simp only [Function.update_same]
        rw [removeFirst_nodup l _ (hinv.nodup s1)]
        exact (hinv.nodup s1).filter _
      · simp only [Function.update_noteq hs]
        exact hinv.nodup s1
    · intro s1 l1 h1
      obtain ⟨hm, hne⟩ := hmem s1 l1 h1
      simp only [Function.update_noteq hne]
      exact hinv.backref s1 l1 hm
    · intro s1 l1 h1
      obtain ⟨hm, hne⟩ := hmem s1 l1 h1
      simp only [Function.update_noteq hne]
      exact hinv.chanOpen s1 l1 hm

/-- C8: in a well-formed heap, for a listener `l` in the list of signal `s`,
`l.Unsubscribe()` removes `l` from the list and clears its back-reference; the
list keeps every other listener in the same relative order, all other
listeners and all other signals are unchanged, and a later `Emit` on `s` hands
its value to exactly the remaining listeners. -/
theorem Unsubscribe_removes_only_the_listener (w : World T σ) (hinv : w.Inv)
    (s : SignalId) (l : ListenerId) (hl : l ∈ (w.signals s).listeners) :
    l ∉ ((Listener.Unsubscribe l w).signals s).listeners ∧
    ((Listener.Unsubscribe l w).listeners l).signal = none ∧
    ((Listener.Unsubscribe l w).signals s).listeners =
      (w.signals s).listeners.filter (fun x => decide (x ≠ l)) ∧
    (∀ l1, l1 ≠ l → (Listener.Unsubscribe l w).listeners l1 = w.listeners l1) ∧
    (∀ s1, s1 ≠ s → (Listener.Unsubscribe l w).signals s1 = w.signals s1) ∧
    (∀ v : T, ∃ w2, Signal.Emit s v (Listener.Unsubscribe l w) = some w2 ∧
      w2.sent = (Listener.Unsubscribe l w).sent ++
        ((w.signals s).listeners.filter (fun x => decide (x ≠ l))).map (fun x => (x, v))) := by
  have hsig := hinv.backref s l hl
  have hlist : ((Listener.Unsubscribe l w).signals s).listeners =
      (w.signals s).listeners.filter (fun x => decide (x ≠ l)) := by
    rw [Unsubscribe_of_signal l s w hsig]
    simp only [Function.update_same]
    exact removeFirst_nodup l _ (hinv.nodup s)
  refine ⟨?_, Unsubscribe_signal_nil l w, hlist, ?_, ?_, ?_⟩
  · rw [hlist]
    simp
  · intro l1 h1
    rw [Unsubscribe_of_signal l s w hsig]
    simp [Function.update_noteq h1]
  · intro s1 h1
    rw [Unsubscribe_of_signal l s w hsig]
    simp [Function.update_noteq h1]
  · intro v
    have hopen := (Unsubscribe_inv l w hinv).chanOpen s
    refine ⟨_, Emit_open s v _ hopen, ?_⟩
    simp only [hlist]

theorem twoSubscribers_listeners_zero :
    (twoSubscribers.2.world.signals 0).listeners = [0, 1] :=
  twoSubscribers_listeners

theorem twoSubscribers_inv : twoSubscribers.2.world.Inv := by
  have hsig : ∀ s, (twoSubscribers.2.world.signals s).listeners = if s = 0 then [0, 1] else [] := by
    intro s
    by_cases hs : s = 0
    · subst hs
      exact twoSubscribers_listeners
    · simp [twoSubscribers, Signal.Subscribe, Signal.addListener, NewBasicProperty,
        BaseProperty.ChangedSignal, World.empty, Sys.empty, Function.update, hs]
  have hmem : ∀ s l, l ∈ (twoSubscribers.2.world.signals s).listeners →
      s = 0 ∧ (l = 0 ∨ l = 1) := by
    intro s l h
    rw [hsig] at h
    by_cases hs : s = 0
    · simpa [hs] using h
    · simp [hs] at h
  refine ⟨?_, ?_, ?_⟩
  · intro s
    rw [hsig]
    by_cases hs : s = 0 <;> simp [hs]
  · intro s l h
    obtain ⟨hs, hl⟩ := hmem s l h
    subst hs
    rcases hl with hl | hl <;> subst hl <;>
      simp [twoSubscribers, Signal.Subscribe, Signal.addListener, NewBasicProperty,
        BaseProperty.ChangedSignal, World.empty, Sys.empty, Function.update]
  · intro s l h
    obtain ⟨hs, hl⟩ := hmem s l h
    subst hs
    rcases hl with hl | hl <;> subst hl <;>
      simp [twoSubscribers, Signal.Subscribe, Signal.addListener, NewBasicProperty,
        BaseProperty.ChangedSignal, World.empty, Sys.empty, Function.update]

theorem Unsubscribe_removes_only_the_listener_witness :
    twoSubscribers.2.world.Inv ∧ 0 ∈ (twoSubscribers.2.world.signals 0).listeners ∧
    (0 ∉ ((Listener.Unsubscribe 0 twoSubscribers.2.world).signals 0).listeners ∧
    ((Listener.Unsubscribe 0 twoSubscribers.2.world).listeners 0).signal = none ∧
    ((Listener.Unsubscribe 0 twoSubscribers.2.world).signals 0).listeners =
      (twoSubscribers.2.world.signals 0).listeners.filter (fun x => decide (x ≠ 0)) ∧
    (∀ l1, l1 ≠ 0 → (Listener.Unsubscribe 0 twoSubscribers.2.world).listeners l1 =
      twoSubscribers.2.world.listeners l1) ∧
    (∀ s1, s1 ≠ 0 → (Listener.Unsubscribe 0 twoSubscribers.2.world).signals s1 =
      twoSubscribers.2.world.signals s1) ∧
    (∀ v : Nat, ∃ w2, Signal.Emit 0 v (Listener.Unsubscribe 0 twoSubscribers.2.world) = some w2 ∧
      w2.sent = (Listener.Unsubscribe 0 twoSubscribers.2.world).sent ++
        ((twoSubscribers.2.world.signals 0).listeners.filter
          (fun x => decide (x ≠ 0))).map (fun x => (x, v)))) :=
  ⟨twoSubscribers_inv, by rw [twoSubscribers_listeners_zero]; simp,
    Unsubscribe_removes_only_the_listener twoSubscribers.2.world twoSubscribers_inv 0 0
      (by rw [twoSubscribers_listeners_zero]; simp)⟩

/-- C9: `Unsubscribe` is idempotent: in every heap, well-formed or not, a
second `Unsubscribe()` of the same listener returns and leaves the whole world
(the listener list and the listener included) as the first call left it. -/
theorem Unsubscribe_idempotent (l : ListenerId) (w : World T σ) :
    Listener.Unsubscribe l (Listener.Unsubscribe l w) = Listener.Unsubscribe l w :=
  Unsubscribe_of_nil l _ (Unsubscribe_signal_nil l w)

/-! ## The unsubscribe scenario on its observable quantities -/

theorem range_succ_of_lt (m n : Nat) (h : m < n) :
    List.range' (m + 1) (n - m) = (m + 1) :: List.range' (m + 2) (n - (m + 1)) := by
  obtain ⟨d, rfl⟩ : ∃ d, n = m + 1 + d := ⟨n - (m + 1), by omega⟩
  have h1 : m + 1 + d - m = d + 1 := by omega
  have h2 : m + 1 + d - (m + 1) = d := by omega
  rw [h1, h2, List.range'_succ]

theorem range_nil_of_le (m n : Nat) (h : n ≤ m) : List.range' (m + 1) (n - m) = [] := by
  have : n - m = 0 := by omega
  rw [this]; rfl

theorem range_one_succ (m : Nat) : List.range' 1 m ++ [m + 1] = List.range' 1 (m + 1) := by
  rw [List.range'_concat]
  simp [Nat.add_comm]

theorem Phase_tick (k n : Nat) (hk : 1 ≤ k) (hkn : k ≤ n) (b : Bool) (a : Abs) (h : Phase k n a) :
    match a.tick k b with
    | .blocked => a.value = n ∧ a.count = k ∧ a.calls = List.range' 1 k ∧
        a.todo = [] ∧ a.pending = [] ∧ a.sub = false
    | .panic => False
    | .next a1 => Phase k n a1 := by
  cases h with
  | start =>
    have h0 : List.range' 0 (n + 1) = 0 :: List.range' 1 n := by
      rw [List.range'_succ]
    have := Phase.s1 (k := k) (n := n) 0 (by omega) (by omega)
    cases b <;> simpa [Abs.tick, Abs.setterStep, Abs.loopStep, h0] using this
  | s1 m hm hn =>
    have h0 := range_succ_of_lt m n (by omega)
    have := Phase.s2 (k := k) (n := n) m hm (by omega)
    cases b <;> simpa [Abs.tick, Abs.setterStep, Abs.loopStep, h0] using this
  | s2 m hm hn =>
    have := Phase.s3 (k := k) (n := n) m hm hn
    cases b <;> simpa [Abs.tick, Abs.setterStep, Abs.loopStep] using this
  | s3 m hm hn =>
    have h2 := Phase.c3 (k := k) (n := n) m hm hn
    by_cases hlast : m + 1 < n
    · have h0 := range_succ_of_lt (m + 1) n hlast
      have h1 := Phase.s4 (k := k) (n := n) m hm (by omega)
      cases b
      · simpa [Abs.tick, Abs.setterStep, Abs.loopStep, h0] using h2
      · simpa [Abs.tick, Abs.setterStep, Abs.loopStep, h0] using h1
    · have h0 := range_nil_of_le (m + 1) n (by omega)
      cases b <;> simpa [Abs.tick, Abs.setterStep, Abs.loopStep, h0] using h2
  | s4 m hm hn =>
    have h2 := Phase.c4 (k := k) (n := n) m hm hn
    cases b <;> simpa [Abs.tick, Abs.setterStep, Abs.loopStep] using h2
  | c3 m hm hn =>
    by_cases hlast : m + 1 < n
    · have h0 := range_succ_of_lt (m + 1) n hlast
      by_cases hk1 : k ≤ m + 1
      · have hkm : k = m + 1 := by omega
        have h1 := Phase.c4 (k := k) (n := n) m hm (by omega)
        have h2 := Phase.u1 (k := k) (n := n) (m + 1) (by omega) (by omega)
        rw [hkm] at h2
        cases b
        · simpa [Abs.tick, Abs.setterStep, Abs.loopStep, h0, hk1, range_one_succ, hkm] using h2
        · simpa [Abs.tick, Abs.setterStep, Abs.loopStep, h0] using h1
      · have h1 := Phase.c4 (k := k) (n := n) m hm (by omega)
        have h2 := Phase.s1 (k := k) (n := n) (m + 1) (by omega) (by omega)
        cases b
        · simpa [Abs.tick, Abs.setterStep, Abs.loopStep, h0, hk1, range_one_succ] using h2
        · simpa [Abs.tick, Abs.setterStep, Abs.loopStep, h0] using h1
    · have h0 := range_nil_of_le (m + 1) n (by omega)
      have hkm : k = m + 1 := by omega
      have h2 := Phase.u1 (k := k) (n := n) (m + 1) (by omega) (by omega)
      rw [hkm] at h2
      cases b <;>
        simpa [Abs.tick, Abs.setterStep, Abs.loopStep, h0, range_one_succ, hkm] using h2
  | c4 m hm hn =>
    by_cases hk1 : k ≤ m + 1
    · have hkm : k = m + 1 := by omega
      have h2 := Phase.u2 (k := k) (n := n) (m + 2) (by omega) (by omega)
      rw [hkm] at h2
      cases b <;>
        simpa [Abs.tick, Abs.setterStep, Abs.loopStep, range_one_succ, hkm] using h2
    · have h2 := Phase.s2 (k := k) (n := n) (m + 1) (by omega) (by omega)
      cases b <;>
        simpa [Abs.tick, Abs.setterStep, Abs.loopStep, range_one_succ, hk1] using h2
  | u1 m hm hn =>
    by_cases hlast : m < n
    · have h0 := range_succ_of_lt m n hlast
      have h2 := Phase.u1 (k := k) (n := n) (m + 1) (by omega) (by omega)
      cases b <;> simpa [Abs.tick, Abs.setterStep, Abs.loopStep, h0] using h2
    · have h0 := range_nil_of_le m n (by omega)
      have hmn : m = n := by omega
      cases b <;> simp [Abs.tick, Abs.setterStep, Abs.loopStep, h0, hmn]
  | u2 m hm hn =>
    have h2 := Phase.u3 (k := k) (n := n) m m hm hn
    cases b <;> simpa [Abs.tick, Abs.setterStep, Abs.loopStep] using h2
  | u3 m v hm hn =>
    have h3 := Phase.u4 (k := k) (n := n) m hm hn
    by_cases hlast : m < n
    · have h0 := range_succ_of_lt m n hlast
      have h2 := Phase.u3 (k := k) (n := n) (m + 1) v (by omega) (by omega)
      cases b
      · simpa [Abs.tick, Abs.setterStep, Abs.loopStep, h0] using h3
      · simpa [Abs.tick, Abs.setterStep, Abs.loopStep, h0] using h2
    · have h0 := range_nil_of_le m n (by omega)
      cases b <;> simpa [Abs.tick, Abs.setterStep, Abs.loopStep, h0] using h3
  | u4 m hm hn =>
    by_cases hlast : m < n
    · have h0 := range_succ_of_lt m n hlast
      have h2 := Phase.u4 (k := k) (n := n) (m + 1) (by omega) (by omega)
      cases b <;> simpa [Abs.tick, Abs.setterStep, Abs.loopStep, h0] using h2
    · have h0 := range_nil_of_le m n (by omega)
      have hmn : m = n := by omega
      cases b <;> simp [Abs.tick, Abs.setterStep, Abs.loopStep, h0, hmn]

theorem Abs_setterStep_measure (a a1 : Abs) (h : a.setterStep = .next a1) :
    a1.measure < a.measure := by
  rcases a with ⟨value, todo, pending, sub, closed, loop, count, calls⟩
  cases pending with
  | cons v rest =>
    cases closed
    · cases loop <;> simp [Abs.setterStep] at h
      subst h
      simp [Abs.measure]
      omega
    · simp [Abs.setterStep] at h
  | nil =>
    cases todo with
    | nil => simp [Abs.setterStep] at h
    | cons v rest =>
      by_cases hv : value = v
      · simp [Abs.setterStep, hv] at h
        subst h
        simp [Abs.measure]
      · simp [Abs.setterStep, hv] at h
        subst h
        cases sub
        · simp [Abs.measure]
        · simp [Abs.measure]
          omega

theorem Abs_loopStep_measure (k : Nat) (a a1 : Abs) (h : a.loopStep k = .next a1) :
    a1.measure < a.measure := by
  rcases a with ⟨value, todo, pending, sub, closed, loop, count, calls⟩
  cases loop with
  | receiving => cases closed <;> simp [Abs.loopStep] at h
  | exited => simp [Abs.loopStep] at h
  | calling v =>
    simp [Abs.loopStep] at h
    subst h
    simp [Abs.measure]
  | got v =>
    cases sub
    · cases closed <;> simp [Abs.loopStep] at h
      subst h
      simp [Abs.measure]
    · simp [Abs.loopStep] at h
      subst h
      simp [Abs.measure]

theorem Abs_tick_measure (k : Nat) (b : Bool) (a a1 : Abs) (h : a.tick k b = .next a1) :
    a1.measure < a.measure := by
  cases b
  · simp only [Abs.tick, Bool.false_eq_true, if_false] at h
    cases hl : a.loopStep k with
    | blocked => rw [hl] at h; exact Abs_setterStep_measure a a1 h
    | panic => rw [hl] at h; cases h
    | next a2 =>
      rw [hl] at h
      cases h
      exact Abs_loopStep_measure k a a1 hl
  · simp only [Abs.tick, if_true] at h
    cases hs : a.setterStep with
    | blocked => rw [hs] at h; exact Abs_loopStep_measure k a a1 h
    | panic => rw [hs] at h; cases h
    | next a2 =>
      rw [hs] at h
      cases h
      exact Abs_setterStep_measure a a1 hs

theorem Abs_tick_blocked (k : Nat) (b : Bool) (a : Abs) (h : a.tick k b = .blocked) :
    a.setterStep = .blocked ∧ a.loopStep k = .blocked := by
  cases b
  · simp only [Abs.tick, Bool.false_eq_true, if_false] at h
    cases hl : a.loopStep k with
    | blocked => rw [hl] at h; exact ⟨h, rfl⟩
    | panic => rw [hl] at h; cases h
    | next a2 => rw [hl] at h; cases h
  · simp only [Abs.tick, if_true] at h
    cases hs : a.setterStep with
    | blocked => rw [hs] at h; exact ⟨rfl, h⟩
    | panic => rw [hs] at h; cases h
    | next a2 => rw [hs] at h; cases h

theorem Abs_exec_final (k n : Nat) (hk : 1 ≤ k) (hkn : k ≤ n) (sched : Nat → Bool) :
    ∀ (fuel : Nat) (a : Abs), Phase k n a → a.measure ≤ fuel →
      ∃ a1, Abs.exec k sched fuel a = some a1 ∧
        (a1.setterStep = .blocked ∧ a1.loopStep k = .blocked) ∧
        a1.value = n ∧ a1.count = k ∧ a1.calls = List.range' 1 k ∧ a1.sub = false := by
  intro fuel
  induction fuel with
  | zero =>
    intro a hp hm
    have ht := Phase_tick k n hk hkn true a hp
    cases hstep : a.tick k true with
    | blocked =>
      rw [hstep] at ht
      exact ⟨a, rfl, Abs_tick_blocked k true a hstep, ht.1, ht.2.1, ht.2.2.1, ht.2.2.2.2.2⟩
    | panic => rw [hstep] at ht; exact ht.elim
    | next a1 =>
      have := Abs_tick_measure k true a a1 hstep
      omega
  | succ fuel ih =>
    intro a hp hm
    have ht := Phase_tick k n hk hkn (sched fuel) a hp
    cases hstep : a.tick k (sched fuel) with
    | blocked =>
      rw [hstep] at ht
      refine ⟨a, ?_, Abs_tick_blocked k _ a hstep, ht.1, ht.2.1, ht.2.2.1, ht.2.2.2.2.2⟩
      simp [Abs.exec, hstep]
    | panic => rw [hstep] at ht; exact ht.elim
    | next a1 =>
      rw [hstep] at ht
      have hlt := Abs_tick_measure k _ a a1 hstep
      obtain ⟨a2, h1, h2⟩ := ih a1 ht (by omega)
      refine ⟨a2, ?_, h2⟩
      simp [Abs.exec, hstep, h1]

theorem sim_setterStep (k : Nat) (a : Abs) (r : Run Nat Unit Nat) (h : Rep k a r) :
    StepRel (Rep k) a.setterStep r.setterStep := by
  rcases a with ⟨value, todo, pending, sub, closed, loop, count, calls⟩
  rcases r with ⟨sys, prop, rtodo, rpending⟩
  obtain ⟨hcb, hcmp, hch, hval, htodo, hpend, hlist, hsig, hclosed, hloop, huser, hcalls⟩ := h
  simp only at hcb hcmp hch hval htodo hpend hlist hsig hclosed hloop huser hcalls
  subst htodo hpend hval
  cases pending with
  | cons v rest =>
    cases closed
    · cases loop with
      | receiving =>
        simp only [Run.setterStep, Abs.setterStep, List.map_cons, chanSend, hclosed, hloop,
          StepRel, Bool.false_eq_true, if_false]
        exact ⟨hcb, hcmp, hch, rfl, rfl, rfl, hlist, hsig, hclosed, by simp, huser, hcalls⟩
      | got u =>
        simp only [Run.setterStep, Abs.setterStep, List.map_cons, chanSend, hclosed, hloop,
          StepRel, Bool.false_eq_true, if_false]
      | calling u =>
        simp only [Run.setterStep, Abs.setterStep, List.map_cons, chanSend, hclosed, hloop,
          StepRel, Bool.false_eq_true, if_false]
      | exited =>
        simp only [Run.setterStep, Abs.setterStep, List.map_cons, chanSend, hclosed, hloop,
          StepRel, Bool.false_eq_true, if_false]
    · simp only [Run.setterStep, Abs.setterStep, List.map_cons, chanSend, hclosed,
        StepRel, if_true]
  | nil =>
    cases rtodo with
    | nil => simp only [Run.setterStep, Abs.setterStep, List.map_nil, StepRel]
    | cons v rest =>
      have he := strict_equals prop hcmp v
      by_cases hv : prop.value = v
      · simp only [Run.setterStep, Abs.setterStep, List.map_nil, StepRel, he, hv, decide_True,
          Bool.not_true, Bool.false_eq_true, if_false, if_true]
        exact ⟨hcb, hcmp, hch, rfl, rfl, rfl, hlist, hsig, hclosed, hloop, huser, hcalls⟩
      · simp only [Run.setterStep, Abs.setterStep, List.map_nil, StepRel, he, hv, decide_False,
          Bool.not_false, if_false, if_true]
        refine ⟨hcb, hcmp, hch, rfl, rfl, ?_, hlist, hsig, hclosed, hloop, huser, hcalls⟩
        simp only [Signal.snapshot, hch, hlist]
        cases sub <;> simp

theorem sim_loopStep (k : Nat) (a : Abs) (r : Run Nat Unit Nat) (h : Rep k a r) :
    StepRel (Rep k) (a.loopStep k) (r.loopStep 0) := by
  rcases a with ⟨value, todo, pending, sub, closed, loop, count, calls⟩
  rcases r with ⟨sys, prop, rtodo, rpending⟩
  obtain ⟨hcb, hcmp, hch, hval, htodo, hpend, hlist, hsig, hclosed, hloop, huser, hcalls⟩ := h
  simp only at hcb hcmp hch hval htodo hpend hlist hsig hclosed hloop huser hcalls
  subst htodo hpend hval
  cases loop with
  | exited => simp only [Run.loopStep, Sys.loopStep, Abs.loopStep, hloop, StepRel]
  | receiving =>
    cases closed <;>
      simp [Run.loopStep, Sys.loopStep, Sys.loopExit, Abs.loopStep, hloop, hclosed, StepRel]
  | got v =>
    cases sub with
    | false =>
      simp only [Bool.false_eq_true, if_false] at hsig hlist
      cases closed with
      | true =>
        simp [Run.loopStep, Sys.loopStep, Sys.loopExit, Abs.loopStep, hloop, hclosed, hsig,
          StepRel]
      | false =>
        simp only [Run.loopStep, Sys.loopStep, Sys.loopExit, Abs.loopStep, hloop, hclosed, hsig,
          StepRel, Bool.false_eq_true, if_false, if_true]
        rw [Unsubscribe_of_nil _ _ (by simp [hsig])]
        exact ⟨hcb, hcmp, hch, rfl, rfl, rfl, by simp [hlist], by simp [hsig], by simp,
          by simp, huser, hcalls⟩
    | true =>
      simp only [if_true] at hsig hlist
      simp only [Run.loopStep, Sys.loopStep, Abs.loopStep, hloop, hsig, StepRel, if_true,
        reduceCtorEq, if_false]
      exact ⟨hcb, hcmp, hch, rfl, rfl, rfl, by simp [hlist], by simp [hsig],
        hclosed, by simp, huser, hcalls⟩
  | calling v =>
    cases sub with
    | false =>
      simp only [Bool.false_eq_true, if_false] at hsig hlist
      by_cases hkv : k ≤ v
      · simp only [Run.loopStep, Sys.loopStep, Abs.loopStep, hloop, StepRel,
          hcb, countingCallback, hkv, if_true]
        rw [Unsubscribe_of_nil 0 _ (by simp [hsig])]
        exact ⟨hcb, hcmp, hch, rfl, rfl, rfl, by simp [hlist], by simp [hsig],
          by simp [hclosed], by simp, by simp [huser], by simp [hcalls]⟩
      · simp only [Run.loopStep, Sys.loopStep, Abs.loopStep, hloop, StepRel,
          hcb, countingCallback, hkv, if_false]
        exact ⟨hcb, hcmp, hch, rfl, rfl, rfl, by simp [hlist], by simp [hsig],
          by simp [hclosed], by simp, by simp [huser], by simp [hcalls]⟩
    | true =>
      simp only [if_true] at hsig hlist
      by_cases hkv : k ≤ v
      · simp only [Run.loopStep, Sys.loopStep, Abs.loopStep, hloop, StepRel,
          hcb, countingCallback, hkv, if_true]
        rw [Unsubscribe_of_signal 0 0 _ (by simp [hsig])]
        exact ⟨hcb, hcmp, hch, rfl, rfl, rfl, by simp [hlist, removeFirst], by simp,
          by simp [hclosed], by simp, by simp [huser], by simp [hcalls]⟩
      · simp only [Run.loopStep, Sys.loopStep, Abs.loopStep, hloop, StepRel,
          hcb, countingCallback, hkv, if_false]
        exact ⟨hcb, hcmp, hch, rfl, rfl, rfl, by simp [hlist, hkv], by simp [hsig, hkv],
          by simp [hclosed], by simp, by simp [huser], by simp [hcalls]⟩

theorem StepRel_blocked {α β : Type} (R : α → β → Prop) (y : Step β)
    (h : StepRel R .blocked y) : y = .blocked := by
  cases y <;> simp [StepRel] at h ⊢

theorem sim_tick (k : Nat) (b : Bool) (a : Abs) (r : Run Nat Unit Nat) (h : Rep k a r) :
    StepRel (Rep k) (a.tick k b) (r.tick 0 b) := by
  have hs := sim_setterStep k a r h
  have hl := sim_loopStep k a r h
  cases b
  · simp only [Abs.tick, Run.tick, Bool.false_eq_true, if_false]
    cases h1 : a.loopStep k <;> cases h2 : r.loopStep 0 <;> rw [h1, h2] at hl <;>
      first
        | exact hl.elim
        | exact hs
        | exact hl
  · simp only [Abs.tick, Run.tick, if_true]
    cases h1 : a.setterStep <;> cases h2 : r.setterStep <;> rw [h1, h2] at hs <;>
      first
        | exact hs.elim
        | exact hl
        | exact hs

theorem sim_exec (k : Nat) (sched : Nat → Bool) :
    ∀ (fuel : Nat) (a : Abs) (r : Run Nat Unit Nat), Rep k a r →
      ∀ a1, Abs.exec k sched fuel a = some a1 →
        ∃ r1, Run.exec 0 sched fuel r = some r1 ∧ Rep k a1 r1 := by
  intro fuel
  induction fuel with
  | zero =>
    intro a r h a1 he
    simp only [Abs.exec, Option.some.injEq] at he
    subst he
    exact ⟨r, rfl, h⟩
  | succ fuel ih =>
    intro a r h a1 he
    have ht := sim_tick k (sched fuel) a r h
    simp only [Abs.exec] at he
    simp only [Run.exec]
    cases h1 : a.tick k (sched fuel) <;> cases h2 : r.tick 0 (sched fuel) <;>
      rw [h1, h2] at ht <;> rw [h1] at he <;> simp only [StepRel] at ht
    · simp only [Option.some.injEq] at he
      subst he
      exact ⟨r, rfl, h⟩
    · cases he
    · exact ih _ _ ht a1 he

theorem Rep_quiescent (k : Nat) (a : Abs) (r : Run Nat Unit Nat) (h : Rep k a r)
    (hs : a.setterStep = .blocked) (hl : a.loopStep k = .blocked) : Run.quiescent 0 r := by
  have h1 := sim_setterStep k a r h
  have h2 := sim_loopStep k a r h
  rw [hs] at h1
  rw [hl] at h2
  have h3 := StepRel_blocked _ _ h1
  have h4 := StepRel_blocked _ _ h2
  intro b
  cases b <;> simp [Run.tick, h3, h4]

theorem unsubscribeScenario_listener (k n : Nat) : (unsubscribeScenario k n).1 = 0 := rfl

theorem unsubscribeScenario_rep (k n : Nat) :
    Rep k ⟨0, List.range' 0 (n + 1), [], true, false, .receiving, 0, []⟩
      (unsubscribeScenario k n).2 := by
  refine ⟨?_, ?_, ?_, ?_, ?_, ?_, ?_, ?_, ?_, ?_, ?_, ?_⟩ <;>
    simp [unsubscribeScenario, Signal.Subscribe, Signal.addListener, NewBasicProperty,
      BaseProperty.ChangedSignal, World.empty, Sys.empty, List.range_eq_range']

theorem Unsubscribe_not_in_snapshot (w : World T σ) (hinv : w.Inv) (l : ListenerId)
    (s : SignalId) : l ∉ Signal.snapshot s (Listener.Unsubscribe l w) := by
  unfold Signal.snapshot
  cases h : (w.listeners l).signal with
  | none =>
    rw [Unsubscribe_of_nil l w h]
    intro hmem
    have := hinv.backref s l hmem
    rw [h] at this
    cases this
  | some s0 =>
    rw [Unsubscribe_of_signal l s0 w h]
    by_cases hs : s = s0
    · subst hs
      simp only [Function.update_same]
      rw [removeFirst_nodup l _ (hinv.nodup s)]
      simp
    · simp only [Function.update_noteq hs]
      intro hmem
      have := hinv.backref s l hmem
      rw [h] at this
      exact hs (Option.some.inj this).symm

theorem loopStep_discards (sys : Sys T σ) (l : ListenerId) (v : T)
    (hgot : sys.loops l = .got v) (hsig : (sys.world.listeners l).signal = none)
    (hopen : (sys.world.listeners l).channel.closed = false) :
    ∃ sys1, sys.loopStep l = .next sys1 ∧ sys1.calls = sys.calls ∧
      sys1.world.user = sys.world.user ∧ sys1.loops l = .exited ∧
      (sys1.world.listeners l).channel.closed = true := by
  refine ⟨{ sys with
      world := { sys.world with
        listeners := Function.update sys.world.listeners l
          { sys.world.listeners l with channel := ⟨true⟩ } }
      loops := Function.update sys.loops l .exited }, ?_, rfl, rfl, ?_, ?_⟩
  · simp only [Sys.loopStep, hgot, hsig, if_true, Sys.loopExit, hopen, Bool.false_eq_true,
      if_false]
    rw [Unsubscribe_of_nil _ _ (by simp)]
  · simp
  · simp

theorem lateValueState_got : lateValueState.loops 0 = .got 2 := by rfl
theorem lateValueState_signal : (lateValueState.world.listeners 0).signal = none := by rfl
theorem lateValueState_open : (lateValueState.world.listeners 0).channel.closed = false := by rfl

/-! ## The one-shot scenario on its observable quantities -/

theorem OncePhase_tick (e : Option Nat) (f : Nat) (b : Bool) (a : Abs)
    (h : OncePhase e f a) :
    match a.tick 0 b with
    | .blocked => a.value = f ∧ a.calls = e.toList ∧ a.count = e.toList.length ∧
        a.todo = [] ∧ a.pending = [] ∧ (e ≠ none → a.sub = false)
    | .panic => False
    | .next a1 => OncePhase e f a1 := by
  cases h with
  | o1 m rest he hf =>
    cases rest with
    | nil =>
      simp only [transitions, List.head?_nil] at he
      subst he
      simp only [List.getLast?_nil, Option.getD_none] at hf
      cases b <;> simp [Abs.tick, Abs.setterStep, Abs.loopStep, hf]
    | cons v rest =>
      rw [List.getLast?_cons, Option.getD_some] at hf
      by_cases hv : m = v
      · subst hv
        have h1 := OncePhase.o1 (e := e) (f := f) m rest (by simpa [transitions] using he) hf
        cases b <;> simpa [Abs.tick, Abs.setterStep, Abs.loopStep] using h1
      · have hv2 : ¬ v = m := fun h => hv h.symm
        have h1 := OncePhase.o2 (e := e) (f := f) v rest
          (by simpa [transitions, hv2] using he.symm) hf
        cases b <;> simpa [Abs.tick, Abs.setterStep, Abs.loopStep, hv] using h1
  | o2 m rest he hf =>
    have h1 := OncePhase.o3 (e := e) (f := f) m m rest he hf
    cases b <;> simpa [Abs.tick, Abs.setterStep, Abs.loopStep] using h1
  | o3 m u rest he hf =>
    have h2 := OncePhase.c3 (e := e) (f := f) m u rest he hf
    cases rest with
    | nil => cases b <;> simpa [Abs.tick, Abs.setterStep, Abs.loopStep] using h2
    | cons v rest =>
      have hf0 := hf
      rw [List.getLast?_cons, Option.getD_some] at hf
      by_cases hv : m = v
      · subst hv
        have h1 := OncePhase.o3 (e := e) (f := f) m u rest he hf
        cases b
        · simpa [Abs.tick, Abs.setterStep, Abs.loopStep] using h2
        · simpa [Abs.tick, Abs.setterStep, Abs.loopStep] using h1
      · have h1 := OncePhase.o4 (e := e) (f := f) v u rest he hf
        cases b
        · simpa [Abs.tick, Abs.setterStep, Abs.loopStep] using h2
        · simpa [Abs.tick, Abs.setterStep, Abs.loopStep, hv] using h1
  | o4 m u rest he hf =>
    have h2 := OncePhase.c4 (e := e) (f := f) m u rest he hf
    cases b <;> simpa [Abs.tick, Abs.setterStep, Abs.loopStep] using h2
  | c3 m u rest he hf =>
    have h2 := OncePhase.p1 (e := e) (f := f) m u rest he hf
    cases rest with
    | nil => cases b <;> simpa [Abs.tick, Abs.setterStep, Abs.loopStep] using h2
    | cons v rest =>
      rw [List.getLast?_cons, Option.getD_some] at hf
      by_cases hv : m = v
      · subst hv
        have h1 := OncePhase.c3 (e := e) (f := f) m u rest he hf
        cases b
        · simpa [Abs.tick, Abs.setterStep, Abs.loopStep] using h2
        · simpa [Abs.tick, Abs.setterStep, Abs.loopStep] using h1
      · have h1 := OncePhase.c4 (e := e) (f := f) v u rest he hf
        cases b
        · simpa [Abs.tick, Abs.setterStep, Abs.loopStep] using h2
        · simpa [Abs.tick, Abs.setterStep, Abs.loopStep, hv] using h1
  | c4 m u rest he hf =>
    have h2 := OncePhase.p2 (e := e) (f := f) m u rest he hf
    cases b <;> simpa [Abs.tick, Abs.setterStep, Abs.loopStep] using h2
  | p1 m u rest he hf =>
    cases rest with
    | nil =>
      simp only [List.getLast?_nil, Option.getD_none] at hf
      subst he
      cases b <;> simp [Abs.tick, Abs.setterStep, Abs.loopStep, hf]
    | cons v rest =>
      rw [List.getLast?_cons, Option.getD_some] at hf
      have h1 := OncePhase.p1 (e := e) (f := f) v u rest he hf
      by_cases hv : m = v
      · subst hv
        cases b <;> simpa [Abs.tick, Abs.setterStep, Abs.loopStep] using h1
      · cases b <;> simpa [Abs.tick, Abs.setterStep, Abs.loopStep, hv] using h1
  | p2 m u rest he hf =>
    have h1 := OncePhase.p3 (e := e) (f := f) m u m rest he hf
    cases b <;> simpa [Abs.tick, Abs.setterStep, Abs.loopStep] using h1
  | p3 m u x rest he hf =>
    have h2 := OncePhase.p4 (e := e) (f := f) m u rest he hf
    cases rest with
    | nil => cases b <;> simpa [Abs.tick, Abs.setterStep, Abs.loopStep] using h2
    | cons v rest =>
      rw [List.getLast?_cons, Option.getD_some] at hf
      have h1 := OncePhase.p3 (e := e) (f := f) v u x rest he hf
      by_cases hv : m = v
      · subst hv
        cases b
        · simpa [Abs.tick, Abs.setterStep, Abs.loopStep] using h2
        · simpa [Abs.tick, Abs.setterStep, Abs.loopStep] using h1
      · cases b
        · simpa [Abs.tick, Abs.setterStep, Abs.loopStep] using h2
        · simpa [Abs.tick, Abs.setterStep, Abs.loopStep, hv] using h1
  | p4 m u rest he hf =>
    cases rest with
    | nil =>
      simp only [List.getLast?_nil, Option.getD_none] at hf
      subst he
      cases b <;> simp [Abs.tick, Abs.setterStep, Abs.loopStep, hf]
    | cons v rest =>
      rw [List.getLast?_cons, Option.getD_some] at hf
      have h1 := OncePhase.p4 (e := e) (f := f) v u rest he hf
      by_cases hv : m = v
      · subst hv
        cases b <;> simpa [Abs.tick, Abs.setterStep, Abs.loopStep] using h1
      · cases b <;> simpa [Abs.tick, Abs.setterStep, Abs.loopStep, hv] using h1

theorem Abs_exec_once (e : Option Nat) (f : Nat) (sched : Nat → Bool) :
    ∀ (fuel : Nat) (a : Abs), OncePhase e f a → a.measure ≤ fuel →
      ∃ a1, Abs.exec 0 sched fuel a = some a1 ∧
        (a1.setterStep = .blocked ∧ a1.loopStep 0 = .blocked) ∧
        a1.value = f ∧ a1.calls = e.toList ∧ a1.count = e.toList.length ∧
        (e ≠ none → a1.sub = false) := by
  intro fuel
  induction fuel with
  | zero =>
    intro a hp hm
    have ht := OncePhase_tick e f true a hp
    cases hstep : a.tick 0 true with
    | blocked =>
      rw [hstep] at ht
      exact ⟨a, rfl, Abs_tick_blocked 0 true a hstep, ht.1, ht.2.1, ht.2.2.1, ht.2.2.2.2.2⟩
    | panic => rw [hstep] at ht; exact ht.elim
    | next a1 =>
      have := Abs_tick_measure 0 true a a1 hstep
      omega
  | succ fuel ih =>
    intro a hp hm
    have ht := OncePhase_tick e f (sched fuel) a hp
    cases hstep : a.tick 0 (sched fuel) with
    | blocked =>
      rw [hstep] at ht
      refine ⟨a, ?_, Abs_tick_blocked 0 _ a hstep, ht.1, ht.2.1, ht.2.2.1, ht.2.2.2.2.2⟩
      simp [Abs.exec, hstep]
    | panic => rw [hstep] at ht; exact ht.elim
    | next a1 =>
      rw [hstep] at ht
      have hlt := Abs_tick_measure 0 _ a a1 hstep
      obtain ⟨a2, h1, h2⟩ := ih a1 ht (by omega)
      refine ⟨a2, ?_, h2⟩
      simp [Abs.exec, hstep, h1]

theorem subscribeOnceScenario_listener (v0 : Nat) (vs : List Nat) :
    (subscribeOnceScenario v0 vs).1 = 0 := rfl

theorem subscribeOnceScenario_rep (v0 : Nat) (vs : List Nat) :
    Rep 0 ⟨v0, vs, [], true, false, .receiving, 0, []⟩ (subscribeOnceScenario v0 vs).2 := by
  refine ⟨?_, ?_, ?_, ?_, ?_, ?_, ?_, ?_, ?_, ?_, ?_, ?_⟩ <;>
    simp [subscribeOnceScenario, Signal.SubscribeOnce, Signal.Subscribe, Signal.addListener,
      NewBasicProperty, BaseProperty.ChangedSignal, World.empty, Sys.empty]
  funext v w
  simp [countingCallback]

theorem Subscribe_result (s : SignalId) (cb : T → World T σ → World T σ) (sys : Sys T σ) :
    (Signal.Subscribe s cb sys).1 = sys.world.nextListener ∧
    (Signal.Subscribe s cb sys).2.callbacks sys.world.nextListener = cb ∧
    (Signal.Subscribe s cb sys).2.loops sys.world.nextListener = .receiving ∧
    (Signal.Subscribe s cb sys).2.world.listeners sys.world.nextListener = ⟨⟨false⟩, some s⟩ ∧
    ((Signal.Subscribe s cb sys).2.world.signals s).listeners =
      (sys.world.signals s).listeners ++ [sys.world.nextListener] ∧
    (Signal.Subscribe s cb sys).2.world.nextListener = sys.world.nextListener + 1 ∧
    (∀ l, l ≠ sys.world.nextListener →
      (Signal.Subscribe s cb sys).2.world.listeners l = sys.world.listeners l) ∧
    (∀ s1, s1 ≠ s → (Signal.Subscribe s cb sys).2.world.signals s1 = sys.world.signals s1) := by
  refine ⟨rfl, ?_, ?_, ?_, ?_, rfl, ?_, ?_⟩
  · simp [Signal.Subscribe]
  · simp [Signal.Subscribe]
  · simp [Signal.Subscribe, Signal.addListener]
  · simp [Signal.Subscribe, Signal.addListener]
  · intro l hl
    simp [Signal.Subscribe, Signal.addListener, Function.update_noteq hl]
  · intro s1 hs
    simp [Signal.Subscribe, Signal.addListener, Function.update_noteq hs]

theorem loopStep_test (sys : Sys T σ) (l : ListenerId) (v : T) (hgot : sys.loops l = .got v)
    (hsig : (sys.world.listeners l).signal ≠ none) :
    sys.loopStep l = .next { sys with loops := Function.update sys.loops l (.calling v) } := by
  simp [Sys.loopStep, hgot, hsig]

theorem loopStep_calls (sys : Sys T σ) (l : ListenerId) (v : T)
    (hcall : sys.loops l = .calling v) :
    sys.loopStep l = .next { sys with world := sys.callbacks l v sys.world
                                      loops := Function.update sys.loops l .receiving
                                      calls := sys.calls ++ [(l, v)] } := by
  simp [Sys.loopStep, hcall]

/-- C11: (a) `SubscribeOnce` subscribes the next listener to be allocated with
the wrapped callback (call the callback, then `Unsubscribe` that listener);
(b) when the goroutine of such a listener, still subscribed, holds a value, it
passes the test of the back-reference and then calls the callback exactly once
with it and the listener is unsubscribed (back-reference nil), and a value
that reaches it afterwards makes it leave the loop without a call; (c) for a
property created with `v0`, a listener subscribed once with a counting
callback and a caller setting the values `vs`,
every schedule of the caller and the goroutine runs without a panic to a state
where no thread can move, in which the callback has been called with the first
value that changed the property and with nothing else (exactly once when there
is an emission), the listener is out of the list with its back-reference nil,
and `Get()` is the last value set. -/
theorem SubscribeOnce_calls_exactly_once (sys : Sys T σ) (s : SignalId)
    (cb : T → World T σ → World T σ)
    (sys2 : Sys T σ) (l : ListenerId) (v v2 : T)
    (hcb : sys2.callbacks l = fun u w => Listener.Unsubscribe l (cb u w))
    (hgot : sys2.loops l = .got v) (hsig : (sys2.world.listeners l).signal ≠ none)
    (hopen : ((cb v sys2.world).listeners l).channel.closed = false)
    (v0 : Nat) (vs : List Nat) (sched : Nat → Bool) (fuel : Nat)
    (hfuel : 4 * vs.length ≤ fuel) :
    ((Signal.SubscribeOnce s cb sys).1 = sys.world.nextListener ∧
      (Signal.SubscribeOnce s cb sys).2.callbacks sys.world.nextListener =
        (fun u w => Listener.Unsubscribe sys.world.nextListener (cb u w)) ∧
      (Signal.SubscribeOnce s cb sys).2.loops sys.world.nextListener = .receiving ∧
      ((Signal.SubscribeOnce s cb sys).2.world.listeners sys.world.nextListener).signal
        = some s ∧
      ((Signal.SubscribeOnce s cb sys).2.world.signals s).listeners =
        (sys.world.signals s).listeners ++ [sys.world.nextListener]) ∧
    (∃ sys2a sys3, sys2.loopStep l = .next sys2a ∧ sys2a.calls = sys2.calls ∧
      sys2a.world = sys2.world ∧ sys2a.loops l = .calling v ∧
      sys2a.loopStep l = .next sys3 ∧ sys3.calls = sys2.calls ++ [(l, v)] ∧
      sys3.world = Listener.Unsubscribe l (cb v sys2.world) ∧
      (sys3.world.listeners l).signal = none ∧ sys3.loops l = .receiving ∧
      ∃ sys5, ({ sys3 with loops := Function.update sys3.loops l (.got v2) } :
          Sys T σ).loopStep l = .next sys5 ∧
        sys5.calls = sys3.calls ∧ sys5.loops l = .exited) ∧
    (∃ r, Run.exec (subscribeOnceScenario v0 vs).1 sched fuel (subscribeOnceScenario v0 vs).2
        = some r ∧
      Run.quiescent (subscribeOnceScenario v0 vs).1 r ∧
      r.sys.calls = (transitions v0 vs).head?.toList.map
        (fun u => ((subscribeOnceScenario v0 vs).1, u)) ∧
      r.sys.world.user = (transitions v0 vs).head?.toList.length ∧
      r.prop.Get = vs.getLast?.getD v0 ∧
      (transitions v0 vs ≠ [] →
        r.sys.calls.length = 1 ∧
        (subscribeOnceScenario v0 vs).1 ∉ Signal.snapshot r.prop.ChangedSignal r.sys.world ∧
        (r.sys.world.listeners (subscribeOnceScenario v0 vs).1).signal = none)) := by
  refine ⟨?_, ?_, ?_⟩
  · have h := Subscribe_result s
      (fun u w => Listener.Unsubscribe sys.world.nextListener (cb u w)) sys
    refine ⟨h.1, h.2.1, h.2.2.1, ?_, h.2.2.2.2.1⟩
    have h4 := h.2.2.2.1
    simp only [Signal.SubscribeOnce]
    rw [h4]
  · have htest := loopStep_test sys2 l v hgot hsig
    have hstep := loopStep_calls
      ({ sys2 with loops := Function.update sys2.loops l (.calling v) } : Sys T σ) l v
      (by simp)
    simp only [hcb] at hstep
    have hnil : ((Listener.Unsubscribe l (cb v sys2.world)).listeners l).signal = none :=
      Unsubscribe_signal_nil l _
    have hchan : ((Listener.Unsubscribe l (cb v sys2.world)).listeners l).channel.closed
        = false := by
      cases hs : ((cb v sys2.world).listeners l).signal with
      | none => rw [Unsubscribe_of_nil _ _ hs]; exact hopen
      | some s0 => rw [Unsubscribe_of_signal _ s0 _ hs]; simpa using hopen
    refine ⟨_, _, htest, rfl, rfl, by simp, hstep, rfl, rfl, hnil, by simp, ?_⟩
    obtain ⟨sys5, h5, h6, _, h7, _⟩ := loopStep_discards
      ({ sys2 with world := Listener.Unsubscribe l (cb v sys2.world)
                   loops := Function.update (Function.update
                     (Function.update sys2.loops l (.calling v)) l .receiving) l (.got v2)
                   calls := sys2.calls ++ [(l, v)] } : Sys T σ) l v2 (by simp) hnil hchan
    exact ⟨sys5, h5, h6, h7⟩
  · obtain ⟨a1, he, ⟨hs, hl⟩, hval, hcalls, hcount, hsub⟩ :=
      Abs_exec_once ((transitions v0 vs).head?) (vs.getLast?.getD v0) sched fuel _
        (OncePhase.o1 v0 vs rfl rfl) (by simp [Abs.measure]; omega)
    obtain ⟨r1, hr, hrep⟩ := sim_exec 0 sched fuel _ _ (subscribeOnceScenario_rep v0 vs) a1 he
    rw [subscribeOnceScenario_listener]
    refine ⟨r1, hr, Rep_quiescent 0 a1 r1 hrep hs hl, ?_, ?_, ?_, ?_⟩
    · rw [hrep.calls, hcalls]
    · rw [hrep.user, hcount]
    · simp [BaseProperty.Get, hrep.value, hval]
    · intro hne
      have hsome : (transitions v0 vs).head? ≠ none := by
        cases htr : transitions v0 vs with
        | nil => exact (hne htr).elim
        | cons x xs => simp
      have hsub1 := hsub hsome
      refine ⟨?_, ?_, ?_⟩
      · rw [hrep.calls, hcalls]
        cases htr : transitions v0 vs with
        | nil => exact (hne htr).elim
        | cons x xs => simp
      · simp [Signal.snapshot, BaseProperty.ChangedSignal, hrep.changed, hrep.list, hsub1]
      · simp [hrep.signal, hsub1]

theorem onceGotState_callback :
    onceGotState.callbacks 0 = fun u w => Listener.Unsubscribe 0 (countCalls u w) := by rfl

theorem onceGotState_got : onceGotState.loops 0 = .got 42 := by rfl

theorem onceGotState_signal : (onceGotState.world.listeners 0).signal ≠ none := by
  rw [show (onceGotState.world.listeners 0).signal = some 0 from rfl]
  simp

theorem onceGotState_open :
    ((countCalls 42 onceGotState.world).listeners 0).channel.closed = false := by rfl

theorem SubscribeOnce_calls_exactly_once_witness :
    onceGotState.callbacks 0 = (fun u w => Listener.Unsubscribe 0 (countCalls u w)) ∧
    onceGotState.loops 0 = .got 42 ∧
    (onceGotState.world.listeners 0).signal ≠ none ∧
    ((countCalls 42 onceGotState.world).listeners 0).channel.closed = false ∧
    4 * ([42, 12, 66] : List Nat).length ≤ 12 ∧
    (((Signal.SubscribeOnce 0 countCalls twoSubscribers.2).1
        = twoSubscribers.2.world.nextListener ∧
      (Signal.SubscribeOnce 0 countCalls twoSubscribers.2).2.callbacks
          twoSubscribers.2.world.nextListener =
        (fun u w => Listener.Unsubscribe twoSubscribers.2.world.nextListener
          (countCalls u w)) ∧
      (Signal.SubscribeOnce 0 countCalls twoSubscribers.2).2.loops
          twoSubscribers.2.world.nextListener = .receiving ∧
      ((Signal.SubscribeOnce 0 countCalls twoSubscribers.2).2.world.listeners
          twoSubscribers.2.world.nextListener).signal = some 0 ∧
      ((Signal.SubscribeOnce 0 countCalls twoSubscribers.2).2.world.signals 0).listeners =
        (twoSubscribers.2.world.signals 0).listeners ++ [twoSubscribers.2.world.nextListener]) ∧
    (∃ sys2a sys3, onceGotState.loopStep 0 = .next sys2a ∧
      sys2a.calls = onceGotState.calls ∧ sys2a.world = onceGotState.world ∧
      sys2a.loops 0 = .calling 42 ∧ sys2a.loopStep 0 = .next sys3 ∧
      sys3.calls = onceGotState.calls ++ [(0, 42)] ∧
      sys3.world = Listener.Unsubscribe 0 (countCalls 42 onceGotState.world) ∧
      (sys3.world.listeners 0).signal = none ∧ sys3.loops 0 = .receiving ∧
      ∃ sys5, ({ sys3 with loops := Function.update sys3.loops 0 (.got 12) } :
          Sys Nat Nat).loopStep 0 = .next sys5 ∧
        sys5.calls = sys3.calls ∧ sys5.loops 0 = .exited) ∧
    (∃ r, Run.exec (subscribeOnceScenario 0 [42, 12, 66]).1 (fun i => i % 2 == 0) 12
        (subscribeOnceScenario 0 [42, 12, 66]).2 = some r ∧
      Run.quiescent (subscribeOnceScenario 0 [42, 12, 66]).1 r ∧
      r.sys.calls = (transitions 0 [42, 12, 66]).head?.toList.map
        (fun u => ((subscribeOnceScenario 0 [42, 12, 66]).1, u)) ∧
      r.sys.world.user = (transitions 0 [42, 12, 66]).head?.toList.length ∧
      r.prop.Get = ([42, 12, 66] : List Nat).getLast?.getD 0 ∧
      (transitions 0 [42, 12, 66] ≠ [] →
        r.sys.calls.length = 1 ∧
        (subscribeOnceScenario 0 [42, 12, 66]).1 ∉
          Signal.snapshot r.prop.ChangedSignal r.sys.world ∧
        (r.sys.world.listeners (subscribeOnceScenario 0 [42, 12, 66]).1).signal = none))) :=
  ⟨onceGotState_callback, onceGotState_got, onceGotState_signal, onceGotState_open,
    by decide,
    SubscribeOnce_calls_exactly_once twoSubscribers.2 0 countCalls onceGotState 0 42 12
      onceGotState_callback onceGotState_got onceGotState_signal onceGotState_open
      0 [42, 12, 66] (fun i => i % 2 == 0) 12 (by decide)⟩

/-! ## Unsubscribe and the delivery queue -/

theorem Unsubscribe_channel (l l1 : ListenerId) (w : World T σ) :
    ((Listener.Unsubscribe l w).listeners l1).channel = (w.listeners l1).channel := by
  cases h : (w.listeners l).signal with
  | none => rw [Unsubscribe_of_nil l w h]
  | some s =>
    rw [Unsubscribe_of_signal l s w h]
    by_cases hl : l1 = l
    · subst hl
      simp
    · simp [Function.update_noteq hl]

/-- C12, as stated, fails: of the two listeners of the property, listener 0 is
active (in the list, back-reference set, channel open, goroutine at its
receive); after `Unsubscribe()` its channel is still open and its goroutine
cannot move: the loop has not ended. -/
theorem Unsubscribe_closes_queue_counterexample :
    0 ∈ (twoSubscribers.2.world.signals 0).listeners ∧
    (twoSubscribers.2.world.listeners 0).signal = some 0 ∧
    (twoSubscribers.2.world.listeners 0).channel.closed = false ∧
    twoSubscribers.2.loops 0 = .receiving ∧
    ((Listener.Unsubscribe 0 twoSubscribers.2.world).listeners 0).channel.closed = false ∧
    ({ twoSubscribers.2 with world := Listener.Unsubscribe 0 twoSubscribers.2.world } :
      Sys Nat Nat).loopStep 0 = .blocked := by
  refine ⟨?_, rfl, rfl, rfl, rfl, rfl⟩
  rw [twoSubscribers_listeners_zero]
  simp

/-- C12, amended: `Unsubscribe()` does not close the delivery queue: it leaves
the channel of every listener as it was, and the goroutine of a listener that
was at its receive with an open channel stays there after `Unsubscribe()` has
returned. It is the delivery loop that closes the queue: when a further value
reaches the goroutine after the unsubscription, the loop ends, closing the
channel, without calling the callback. -/
theorem Unsubscribe_leaves_queue_open (sys : Sys T σ) (l : ListenerId) (v : T)
    (hrecv : sys.loops l = .receiving)
    (hopen : (sys.world.listeners l).channel.closed = false) :
    (∀ l1, ((Listener.Unsubscribe l sys.world).listeners l1).channel =
      (sys.world.listeners l1).channel) ∧
    ({ sys with world := Listener.Unsubscribe l sys.world } : Sys T σ).loopStep l = .blocked ∧
    (∃ sys1, ({ sys with world := Listener.Unsubscribe l sys.world
                         loops := Function.update sys.loops l (.got v) } :
        Sys T σ).loopStep l = .next sys1 ∧
      (sys1.world.listeners l).channel.closed = true ∧ sys1.loops l = .exited ∧
      sys1.calls = sys.calls) := by
  have hch := Unsubscribe_channel l l sys.world
  have hopen1 : ((Listener.Unsubscribe l sys.world).listeners l).channel.closed = false := by
    rw [hch]; exact hopen
  refine ⟨fun l1 => Unsubscribe_channel l l1 sys.world, ?_, ?_⟩
  · simp [Sys.loopStep, hrecv, hopen1]
  · obtain ⟨sys1, h1, h2, _, h3, h4⟩ := loopStep_discards
      ({ sys with world := Listener.Unsubscribe l sys.world
                  loops := Function.update sys.loops l (.got v) } : Sys T σ) l v
      (by simp) (Unsubscribe_signal_nil l sys.world) hopen1
    exact ⟨sys1, h1, h4, h3, h2⟩

theorem Unsubscribe_leaves_queue_open_witness :
    twoSubscribers.2.loops 0 = .receiving ∧
    (twoSubscribers.2.world.listeners 0).channel.closed = false ∧
    ((∀ l1, ((Listener.Unsubscribe 0 twoSubscribers.2.world).listeners l1).channel =
      (twoSubscribers.2.world.listeners l1).channel) ∧
    ({ twoSubscribers.2 with world := Listener.Unsubscribe 0 twoSubscribers.2.world } :
      Sys Nat Nat).loopStep 0 = .blocked ∧
    (∃ sys1, ({ twoSubscribers.2 with
                  world := Listener.Unsubscribe 0 twoSubscribers.2.world
                  loops := Function.update twoSubscribers.2.loops 0 (.got 42) } :
        Sys Nat Nat).loopStep 0 = .next sys1 ∧
      (sys1.world.listeners 0).channel.closed = true ∧ sys1.loops 0 = .exited ∧
      sys1.calls = twoSubscribers.2.calls)) :=
  ⟨rfl, rfl, Unsubscribe_leaves_queue_open twoSubscribers.2 0 42 rfl rfl⟩

/-! ## The invariant of reachable states -/

theorem Inv_congr (w w1 : World T σ) (hs : w1.signals = w.signals)
    (hl : w1.listeners = w.listeners) (h : w.Inv) : w1.Inv := by
  refine ⟨?_, ?_, ?_⟩
  · intro s; rw [hs]; exact h.nodup s
  · intro s l hm; rw [hs] at hm; rw [hl]; exact h.backref s l hm
  · intro s; exact Open_congr s w w1 hs hl (h.chanOpen s)

theorem Frame_refl (w : World T σ) : World.Frame w w :=
  ⟨rfl, id, fun _ _ h => h, fun _ h => h⟩

theorem Frame_trans (w w1 w2 : World T σ) (h1 : World.Frame w w1) (h2 : World.Frame w1 w2) :
    World.Frame w w2 :=
  ⟨h2.next.trans h1.next, fun h => h2.inv (h1.inv h),
    fun s l h => h1.shrink s l (h2.shrink s l h),
    fun l h => h2.cleared l (h1.cleared l h)⟩

theorem Unsubscribe_nextListener (l : ListenerId) (w : World T σ) :
    (Listener.Unsubscribe l w).nextListener = w.nextListener := by
  cases h : (w.listeners l).signal with
  | none => rw [Unsubscribe_of_nil l w h]
  | some s => rw [Unsubscribe_of_signal l s w h]

theorem removeFirst_subset (l x : ListenerId) (ls : List ListenerId)
    (h : x ∈ removeFirst l ls) : x ∈ ls := by
  rw [removeFirst_eq_erase] at h
  exact List.mem_of_mem_erase h

theorem Unsubscribe_frame (l : ListenerId) (w : World T σ) :
    World.Frame w (Listener.Unsubscribe l w) := by
  refine ⟨Unsubscribe_nextListener l w, Unsubscribe_inv l w, ?_, ?_⟩
  · intro s x hx
    cases h : (w.listeners l).signal with
    | none => rw [Unsubscribe_of_nil l w h] at hx; exact hx
    | some s0 =>
      rw [Unsubscribe_of_signal l s0 w h] at hx
      by_cases hs : s = s0
      · subst hs
        simp only [Function.update_same] at hx
        exact removeFirst_subset l x _ hx
      · simpa [Function.update_noteq hs] using hx
  · intro x hx
    by_cases hl : x = l
    · subst hl
      exact Unsubscribe_signal_nil x w
    · cases h : (w.listeners l).signal with
      | none => rw [Unsubscribe_of_nil l w h]; exact hx
      | some s0 =>
        rw [Unsubscribe_of_signal l s0 w h]
        simpa [Function.update_noteq hl] using hx

theorem user_frame (w : World T σ) (u : σ) : World.Frame w { w with user := u } :=
  ⟨rfl, fun h => Inv_congr w _ rfl rfl h, fun _ _ h => h, fun _ h => h⟩

theorem foldl_Unsubscribe_frame (ls : List ListenerId) (w : World T σ) :
    World.Frame w (ls.foldl (fun w1 l => Listener.Unsubscribe l w1) w) := by
  induction ls generalizing w with
  | nil => exact Frame_refl w
  | cons a rest ih =>
    simp only [List.foldl_cons]
    exact Frame_trans _ _ _ (Unsubscribe_frame a w) (ih _)

theorem UserCallback_frame (cb : UserCallback T σ) (v : T) (w : World T σ) :
    World.Frame w (cb.run v w) :=
  Frame_trans _ _ _ (user_frame w (cb.update v w.user)) (foldl_Unsubscribe_frame _ _)

theorem sendAll_some (v : T) (ls : List ListenerId) (w w1 : World T σ)
    (h : sendAll v ls w = some w1) :
    w1.signals = w.signals ∧ w1.listeners = w.listeners ∧
      w1.nextListener = w.nextListener ∧ w1.user = w.user := by
  induction ls generalizing w with
  | nil =>
    simp only [sendAll, Option.some.injEq] at h
    subst h
    exact ⟨rfl, rfl, rfl, rfl⟩
  | cons a rest ih =>
    simp only [sendAll, chanSend] at h
    by_cases hc : (w.listeners a).channel.closed = true
    · simp [hc] at h
    · simp only [hc, Bool.false_eq_true, if_false] at h
      exact ih ({ w with sent := w.sent ++ [(a, v)] } : World T σ) h

theorem Emit_some (s : SignalId) (v : T) (w w1 : World T σ)
    (h : Signal.Emit s v w = some w1) :
    w1.signals = w.signals ∧ w1.listeners = w.listeners ∧
      w1.nextListener = w.nextListener ∧ w1.user = w.user :=
  sendAll_some v (Signal.snapshot s w)
    ({ w with emitted := w.emitted ++ [(s, v)] } : World T σ) w1 h

theorem Set_some (p p1 : BaseProperty T O) (v : T) (w w1 : World T σ)
    (h : p.Set v w = some (p1, w1)) :
    p1 = { p with value := v } ∧ w1.signals = w.signals ∧ w1.listeners = w.listeners ∧
      w1.nextListener = w.nextListener ∧ w1.user = w.user := by
  unfold BaseProperty.Set at h
  cases he : p.Equals (.val v) with
  | none => simp [he] at h
  | some eq =>
    cases eq
    · simp only [he, Bool.not_false, if_true] at h
      cases hemit : Signal.Emit p.changed v w with
      | none => simp [hemit] at h
      | some w2 =>
        simp only [hemit, Option.some.injEq, Prod.mk.injEq] at h
        obtain ⟨h1, h2⟩ := h
        subst h1 h2
        exact ⟨rfl, Emit_some _ _ _ _ hemit⟩
    · simp only [he, Bool.not_true, Bool.false_eq_true, if_false, Option.some.injEq,
        Prod.mk.injEq] at h
      obtain ⟨h1, h2⟩ := h
      subst h1 h2
      exact ⟨rfl, rfl, rfl, rfl, rfl⟩

theorem Later_refl (sys : Sys T σ) : Sys.Later sys sys :=
  ⟨Nat.le_refl _, fun _ _ h => h⟩

theorem Later_trans (sys sys1 sys2 : Sys T σ) (h1 : Sys.Later sys sys1)
    (h2 : Sys.Later sys1 sys2) : Sys.Later sys sys2 :=
  ⟨Nat.le_trans h1.next h2.next,
    fun l hl h => h2.cleared l (Nat.lt_of_lt_of_le hl h1.next) (h1.cleared l hl h)⟩

theorem Good_frame (sys sys1 : Sys T σ) (h : sys.Good)
    (hf : World.Frame sys.world sys1.world) (hcb : sys1.callbacks = sys.callbacks) :
    sys1.Good ∧ Sys.Later sys sys1 := by
  refine ⟨⟨hf.inv h.inv, ?_, ?_⟩, ⟨Nat.le_of_eq hf.next.symm, fun l _ hl => hf.cleared l hl⟩⟩
  · intro s l hl
    rw [hf.next]
    exact h.alloc s l (hf.shrink s l hl)
  · rw [hcb]
    exact h.callbacks

theorem Good_same_heap (sys sys1 : Sys T σ) (h : sys.Good)
    (hs : sys1.world.signals = sys.world.signals)
    (hl : sys1.world.listeners = sys.world.listeners)
    (hn : sys1.world.nextListener = sys.world.nextListener)
    (hcb : sys1.callbacks = sys.callbacks) :
    sys1.Good ∧ Sys.Later sys sys1 :=
  Good_frame sys sys1 h
    ⟨hn, fun hi => Inv_congr _ _ hs hl hi, fun s l hm => by rw [hs] at hm; exact hm,
      fun l hx => by rw [hl]; exact hx⟩ hcb

theorem Subscribe_good (s : SignalId) (cb : T → World T σ → World T σ) (sys : Sys T σ)
    (h : sys.Good) (hcb : ∀ v w, World.Frame w (cb v w)) :
    (Signal.Subscribe s cb sys).2.Good ∧ Sys.Later sys (Signal.Subscribe s cb sys).2 := by
  obtain ⟨_, h2, _, h4, h5, h6, h7, h8⟩ := Subscribe_result s cb sys
  have hfresh : ∀ s1, sys.world.nextListener ∉ (sys.world.signals s1).listeners := by
    intro s1 hm
    exact Nat.lt_irrefl _ (h.alloc s1 _ hm)
  have hmem : ∀ s1 l, l ∈ ((Signal.Subscribe s cb sys).2.world.signals s1).listeners →
      (l ∈ (sys.world.signals s1).listeners ∧ l ≠ sys.world.nextListener) ∨
      (s1 = s ∧ l = sys.world.nextListener) := by
    intro s1 l hm
    by_cases hs : s1 = s
    · subst hs
      rw [h5] at hm
      simp only [List.mem_append, List.mem_singleton] at hm
      rcases hm with hm | hm
      · exact Or.inl ⟨hm, fun hl => hfresh s1 (hl ▸ hm)⟩
      · exact Or.inr ⟨rfl, hm⟩
    · rw [h8 s1 hs] at hm
      exact Or.inl ⟨hm, fun hl => hfresh s1 (hl ▸ hm)⟩
  refine ⟨⟨⟨?_, ?_, ?_⟩, ?_, ?_⟩, ⟨?_, ?_⟩⟩
  · intro s1
    by_cases hs : s1 = s
    · subst hs
      rw [h5]
      refine List.Nodup.append (h.inv.nodup s1) (List.nodup_singleton _) ?_
      intro x hx hx2
      simp only [List.mem_singleton] at hx2
      subst hx2
      exact hfresh s1 hx
    · rw [h8 s1 hs]
      exact h.inv.nodup s1
  · intro s1 l hm
    rcases hmem s1 l hm with ⟨hm1, hne⟩ | ⟨hs, hl⟩
    · rw [h7 l hne]
      exact h.inv.backref s1 l hm1
    · subst hs hl
      rw [h4]
  · intro s1 l hm
    rcases hmem s1 l hm with ⟨hm1, hne⟩ | ⟨hs, hl⟩
    · rw [h7 l hne]
      exact h.inv.chanOpen s1 l hm1
    · subst hs hl
      rw [h4]
  · intro s1 l hm
    rw [h6]
    rcases hmem s1 l hm with ⟨hm1, _⟩ | ⟨_, hl⟩
    · exact Nat.lt_succ_of_lt (h.alloc s1 l hm1)
    · subst hl
      exact Nat.lt_succ_self _
  · intro l v w
    by_cases hl : l = sys.world.nextListener
    · subst hl
      rw [h2]
      exact hcb v w
    · have : (Signal.Subscribe s cb sys).2.callbacks l = sys.callbacks l := by
        simp [Signal.Subscribe, Function.update_noteq hl]
      rw [this]
      exact h.callbacks l v w
  · rw [h6]
    exact Nat.le_succ _
  · intro l hl hsig
    rw [h7 l (Nat.ne_of_lt hl)]
    exact hsig

theorem loopStep_good (l : ListenerId) (sys sys1 : Sys T σ) (h : sys.Good)
    (hstep : sys.loopStep l = .next sys1) : sys1.Good ∧ Sys.Later sys sys1 := by
  unfold Sys.loopStep at hstep
  cases hloop : sys.loops l with
  | exited => simp [hloop] at hstep
  | receiving =>
    by_cases hc : (sys.world.listeners l).channel.closed = true
    · simp [hloop, hc, Sys.loopExit] at hstep
    · simp [hloop, hc] at hstep
  | got v =>
    by_cases hsig : (sys.world.listeners l).signal = none
    · by_cases hc : (sys.world.listeners l).channel.closed = true
      · simp [hloop, hsig, hc, Sys.loopExit] at hstep
      · simp only [hloop, hsig, if_true, Sys.loopExit, hc, Bool.false_eq_true, if_false,
          Step.next.injEq] at hstep
        rw [Unsubscribe_of_nil _ _ (by simp [hsig])] at hstep
        subst hstep
        have hnot : ∀ s, l ∉ (sys.world.signals s).listeners := by
          intro s hm
          have := h.inv.backref s l hm
          rw [hsig] at this
          cases this
        refine Good_frame sys _ h ⟨rfl, ?_, fun _ _ hm => hm, ?_⟩ rfl
        · intro hi
          refine ⟨hi.nodup, ?_, ?_⟩
          · intro s x hm
            have hx : x ≠ l := fun hxl => hnot s (hxl ▸ hm)
            simp only [Function.update_noteq hx]
            exact hi.backref s x hm
          · intro s x hm
            have hx : x ≠ l := fun hxl => hnot s (hxl ▸ hm)
            simp only [Function.update_noteq hx]
            exact hi.chanOpen s x hm
        · intro x hx
          by_cases hxl : x = l
          · subst hxl
            simp [hsig]
          · simp only [Function.update_noteq hxl]
            exact hx
    · simp only [hloop, hsig, if_false, Step.next.injEq] at hstep
      subst hstep
      exact Good_same_heap sys _ h rfl rfl rfl rfl
  | calling v =>
    simp only [hloop, Step.next.injEq] at hstep
    subst hstep
    exact Good_frame sys _ h (h.callbacks l v sys.world) rfl

theorem once_frame (cb : UserCallback T σ) (l : ListenerId) (v : T) (w : World T σ) :
    World.Frame w (Listener.Unsubscribe l (cb.run v w)) :=
  Frame_trans _ _ _ (UserCallback_frame cb v w) (Unsubscribe_frame l _)

theorem apply_good (op : Op T O σ) (st st1 : BaseProperty T O × Sys T σ)
    (h : op.apply st = some st1) (hg : st.2.Good) :
    st1.2.Good ∧ Sys.Later st.2 st1.2 ∧ st1.1.comparator = st.1.comparator ∧
      st1.1.changed = st.1.changed ∧ ((∀ v, op ≠ .set v) → st1.1 = st.1) := by
  cases op with
  | get =>
    simp only [Op.apply, Option.some.injEq] at h
    subst h
    exact ⟨hg, Later_refl _, rfl, rfl, fun _ => rfl⟩
  | changedSignal =>
    simp only [Op.apply, Option.some.injEq] at h
    subst h
    exact ⟨hg, Later_refl _, rfl, rfl, fun _ => rfl⟩
  | equals a =>
    simp only [Op.apply] at h
    cases he : st.1.Equals a with
    | none => simp [he] at h
    | some b =>
      simp only [he, Option.some.injEq] at h
      subst h
      exact ⟨hg, Later_refl _, rfl, rfl, fun _ => rfl⟩
  | set v =>
    simp only [Op.apply] at h
    cases hs : st.1.Set v st.2.world with
    | none => simp [hs] at h
    | some r =>
      obtain ⟨p1, w1⟩ := r
      simp only [hs, Option.some.injEq] at h
      subst h
      obtain ⟨hp, h1, h2, h3, _⟩ := Set_some _ _ _ _ _ hs
      obtain ⟨hg1, hl1⟩ := Good_same_heap st.2 { st.2 with world := w1 } hg h1 h2 h3 rfl
      refine ⟨hg1, hl1, ?_, ?_, fun hv => (hv v rfl).elim⟩
      · simp [hp]
      · simp [hp]
  | emit v =>
    simp only [Op.apply] at h
    cases hs : Signal.Emit st.1.ChangedSignal v st.2.world with
    | none => simp [hs] at h
    | some w1 =>
      simp only [hs, Option.some.injEq] at h
      subst h
      obtain ⟨h1, h2, h3, _⟩ := Emit_some _ _ _ _ hs
      obtain ⟨hg1, hl1⟩ := Good_same_heap st.2 { st.2 with world := w1 } hg h1 h2 h3 rfl
      exact ⟨hg1, hl1, rfl, rfl, fun _ => rfl⟩
  | subscribe cb =>
    simp only [Op.apply, Option.some.injEq] at h
    subst h
    obtain ⟨hg1, hl1⟩ := Subscribe_good st.1.ChangedSignal cb.run st.2 hg
      (UserCallback_frame cb)
    exact ⟨hg1, hl1, rfl, rfl, fun _ => rfl⟩
  | subscribeOnce cb =>
    simp only [Op.apply, Option.some.injEq] at h
    subst h
    obtain ⟨hg1, hl1⟩ := Subscribe_good st.1.ChangedSignal
      (fun v w => Listener.Unsubscribe st.2.world.nextListener (cb.run v w)) st.2 hg
      (once_frame cb _)
    exact ⟨hg1, hl1, rfl, rfl, fun _ => rfl⟩
  | unsubscribe l =>
    simp only [Op.apply, Option.some.injEq] at h
    subst h
    obtain ⟨hg1, hl1⟩ := Good_frame st.2
      { st.2 with world := Listener.Unsubscribe l st.2.world } hg (Unsubscribe_frame l _) rfl
    exact ⟨hg1, hl1, rfl, rfl, fun _ => rfl⟩
  | handOver l v =>
    simp only [Op.apply] at h
    cases hloop : st.2.loops l with
    | receiving =>
      by_cases hc : (st.2.world.listeners l).channel.closed = true
      · simp [hloop, hc] at h
      · simp only [hloop, hc, Bool.false_eq_true, if_false, Option.some.injEq] at h
        subst h
        obtain ⟨hg1, hl1⟩ := Good_same_heap st.2
          { st.2 with loops := Function.update st.2.loops l (.got v) } hg rfl rfl rfl rfl
        exact ⟨hg1, hl1, rfl, rfl, fun _ => rfl⟩
    | got u => simp [hloop] at h
    | calling u => simp [hloop] at h
    | exited => simp [hloop] at h
  | loop l =>
    simp only [Op.apply] at h
    cases hstep : st.2.loopStep l with
    | blocked => simp [hstep] at h
    | panic => simp [hstep] at h
    | next sys1 =>
      simp only [hstep, Option.some.injEq] at h
      subst h
      obtain ⟨hg1, hl1⟩ := loopStep_good l st.2 sys1 hg hstep
      exact ⟨hg1, hl1, rfl, rfl, fun _ => rfl⟩

theorem applyAll_good (ops : List (Op T O σ)) (st st1 : BaseProperty T O × Sys T σ)
    (h : applyAll ops st = some st1) (hg : st.2.Good) :
    st1.2.Good ∧ Sys.Later st.2 st1.2 ∧ st1.1.comparator = st.1.comparator ∧
      st1.1.changed = st.1.changed ∧ ((∀ v, Op.set v ∉ ops) → st1.1 = st.1) := by
  induction ops generalizing st with
  | nil =>
    simp only [applyAll, Option.some.injEq] at h
    subst h
    exact ⟨hg, Later_refl _, rfl, rfl, fun _ => rfl⟩
  | cons op rest ih =>
    simp only [applyAll] at h
    cases hop : op.apply st with
    | none => simp [hop] at h
    | some st2 =>
      simp only [hop] at h
      obtain ⟨g1, l1, c1, s1, e1⟩ := apply_good op st st2 hop hg
      obtain ⟨g2, l2, c2, s2, e2⟩ := ih st2 h g1
      refine ⟨g2, Later_trans _ _ _ l1 l2, c2.trans c1, s2.trans s1, ?_⟩
      intro hno
      rw [e2 (fun v hv => hno v (List.mem_cons_of_mem _ hv)),
        e1 (fun v hv => hno v (hv ▸ List.mem_cons_self _ _))]

theorem Constructed_good (init : BaseProperty T O × Sys T σ) (h : Constructed init) :
    init.2.Good ∧ init.1.Built := by
  have hempty : ∀ (w : World T σ), (∀ s, (w.signals s).listeners = []) →
      ∀ (sys : Sys T σ), sys.world = w → sys.callbacks = (fun _ _ w1 => w1) → sys.Good := by
    intro w hw sys hsys hcb
    refine ⟨⟨?_, ?_, ?_⟩, ?_, ?_⟩
    · intro s; rw [hsys, hw s]; exact List.nodup_nil
    · intro s l hm; rw [hsys, hw s] at hm; cases hm
    · intro s l hm; rw [hsys, hw s] at hm; cases hm
    · intro s l hm; rw [hsys, hw s] at hm; cases hm
    · intro l v w1; rw [hcb]; exact Frame_refl w1
  rcases h with ⟨inst, v, u, rfl⟩ | ⟨tEquals, v, u, rfl⟩
  · refine ⟨hempty _ ?_ _ rfl rfl, rfl⟩
    intro s
    by_cases hs : s = 0 <;>
      simp [startState, NewBasicProperty, World.empty, Function.update, hs]
  · refine ⟨hempty _ ?_ _ rfl rfl, rfl⟩
    intro s
    by_cases hs : s = 0 <;>
      simp [startState, NewComparableProperty, World.empty, Function.update, hs]

/-! ## Reachable states -/

theorem Reachable_good (init st : BaseProperty T O × Sys T σ) (hc : Constructed init)
    (hr : Reachable init st) :
    st.2.Good ∧ st.1.comparator = init.1.comparator ∧ st.1.Built := by
  obtain ⟨ops, hops⟩ := hr
  obtain ⟨hg, hb⟩ := Constructed_good init hc
  obtain ⟨g1, _, c1, _, _⟩ := applyAll_good ops init st hops hg
  refine ⟨g1, c1, ?_⟩
  unfold BaseProperty.Built at hb ⊢
  rw [c1]
  exact hb

theorem demoStart_constructed : Constructed demoStart :=
  Or.inl ⟨inferInstance, 0, 0, rfl⟩

theorem demoState_reachable : Reachable demoStart demoState :=
  ⟨demoOps, by rfl⟩

/-- C13: in every state reached from the property returned by
`NewBasicProperty`, and in every state reached from the property returned by
`NewComparableProperty`, by any sequence of calls of `Get`, `Set`, `Equals`,
`ChangedSignal`, `Subscribe`, `SubscribeOnce`, `Emit`, `Unsubscribe` and of
goroutine moves, the comparator is not nil and is the cell itself with the
flavor of its constructor: for `NewBasicProperty` the built-in comparison of
`T`, for `NewComparableProperty` the delegate to the `Equals` of the value
type. `Equals` is the `Equals` of that flavor, and `Set` returns with the
notification decided by that `Equals`; neither fails on a missing strategy
(the only failure is a panic of the built-in `==` itself). -/
theorem comparator_is_always_the_cell (g : GoComparable T) (tEquals : T → Any T O → Bool)
    (v0 : T) (u : σ) (st st' : BaseProperty T O × Sys T σ)
    (hr : Reachable (startState (@NewBasicProperty T O σ g v0 (World.empty u))) st)
    (hr' : Reachable (startState (NewComparableProperty tEquals v0 (World.empty u))) st') :
    (st.1.comparator = some (.basic g) ∧
      (∀ a, st.1.Equals a = @BasicProperty.Equals T O g st.1 a) ∧
      (∀ v b, @BasicProperty.Equals T O g st.1 (.val v) = some b →
        ∃ p1 w1, st.1.Set v st.2.world = some (p1, w1) ∧ p1.comparator = some (.basic g) ∧
          w1.emitted = st.2.world.emitted ++ (if b then [] else [(st.1.changed, v)])) ∧
      (∀ v, st.1.Set v st.2.world = none ↔
        @BasicProperty.Equals T O g st.1 (.val v) = none)) ∧
    (st'.1.comparator = some (.comparable tEquals) ∧
      (∀ a, st'.1.Equals a = some (ComparableProperty.Equals tEquals st'.1 a)) ∧
      (∀ v, ∃ p1 w1, st'.1.Set v st'.2.world = some (p1, w1) ∧
        p1.comparator = some (.comparable tEquals) ∧
        w1.emitted = st'.2.world.emitted ++
          (if ComparableProperty.Equals tEquals st'.1 (.val v) then []
            else [(st'.1.changed, v)]))) := by
  obtain ⟨hg, hcmp, _⟩ := Reachable_good _ st (Or.inl ⟨g, v0, u, rfl⟩) hr
  obtain ⟨hg', hcmp', _⟩ := Reachable_good _ st' (Or.inr ⟨tEquals, v0, u, rfl⟩) hr'
  have hcg : st.1.comparator = some (.basic g) := hcmp
  have hct : st'.1.comparator = some (.comparable tEquals) := hcmp'
  have he : ∀ a, st.1.Equals a = @BasicProperty.Equals T O g st.1 a := by
    intro a
    simp [BaseProperty.Equals, hcg]
  have he' : ∀ a, st'.1.Equals a = some (ComparableProperty.Equals tEquals st'.1 a) := by
    intro a
    simp [BaseProperty.Equals, hct]
  refine ⟨⟨hcg, he, ?_, ?_⟩, hct, he', ?_⟩
  · intro v b hb1
    have hset := Set_open st.1 v st.2.world b (by rw [he, hb1]) (hg.inv.chanOpen _)
    refine ⟨_, _, hset, hcg, ?_⟩
    cases b <;> simp
  · intro v
    constructor
    · intro hn
      cases hb1 : @BasicProperty.Equals T O g st.1 (.val v) with
      | none => rfl
      | some b =>
        have hset := Set_open st.1 v st.2.world b (by rw [he, hb1]) (hg.inv.chanOpen _)
        rw [hn] at hset
        cases hset
    · intro hn
      exact Set_none st.1 v st.2.world (by rw [he, hn])
  · intro v
    have hset := Set_open st'.1 v st'.2.world _ (he' (.val v)) (hg'.inv.chanOpen _)
    refine ⟨_, _, hset, hct, ?_⟩
    cases ComparableProperty.Equals tEquals st'.1 (.val v) <;> simp

theorem demoComparableState_reachable :
    Reachable (startState (NewComparableProperty dummyEquals 0 (World.empty 0)))
      demoComparableState :=
  ⟨demoOps, by rfl⟩

theorem comparator_is_always_the_cell_witness :
    Reachable (startState (@NewBasicProperty Nat Unit Nat instGoComparableNat 0 (World.empty 0)))
      demoState ∧
    Reachable (startState (NewComparableProperty dummyEquals 0 (World.empty 0)))
      demoComparableState ∧
    ((demoState.1.comparator = some (.basic instGoComparableNat) ∧
      (∀ a, demoState.1.Equals a =
        @BasicProperty.Equals Nat Unit instGoComparableNat demoState.1 a) ∧
      (∀ v b, @BasicProperty.Equals Nat Unit instGoComparableNat demoState.1 (.val v) = some b →
        ∃ p1 w1, demoState.1.Set v demoState.2.world = some (p1, w1) ∧
          p1.comparator = some (.basic instGoComparableNat) ∧
          w1.emitted = demoState.2.world.emitted ++
            (if b then [] else [(demoState.1.changed, v)])) ∧
      (∀ v, demoState.1.Set v demoState.2.world = none ↔
        @BasicProperty.Equals Nat Unit instGoComparableNat demoState.1 (.val v) = none)) ∧
    (demoComparableState.1.comparator = some (.comparable dummyEquals) ∧
      (∀ a, demoComparableState.1.Equals a =
        some (ComparableProperty.Equals dummyEquals demoComparableState.1 a)) ∧
      (∀ v, ∃ p1 w1, demoComparableState.1.Set v demoComparableState.2.world = some (p1, w1) ∧
        p1.comparator = some (.comparable dummyEquals) ∧
        w1.emitted = demoComparableState.2.world.emitted ++
          (if ComparableProperty.Equals dummyEquals demoComparableState.1 (.val v) then []
            else [(demoComparableState.1.changed, v)])))) :=
  ⟨demoState_reachable, demoComparableState_reachable,
    comparator_is_always_the_cell instGoComparableNat dummyEquals 0 0 demoState
      demoComparableState demoState_reachable demoComparableState_reachable⟩

/-- C14, as stated, fails: a property built by `NewComparableProperty` over a
value type whose `Equals` never answers true (as `dummycomparable` in the
tests) has `Equals(Get()) = false`, already in the state the constructor
returns; so has a property built by `NewBasicProperty` over `float64` with the
value NaN, and one over `any` with the nil value; and over `any` with a slice
as value `Equals(Get())` panics. -/
theorem Equals_reflexive_counterexample :
    (Constructed (startState (NewComparableProperty dummyEquals 0 (World.empty (0 : Nat)))) ∧
    (startState (NewComparableProperty dummyEquals 0 (World.empty (0 : Nat)))).1.Equals
      (.val (startState (NewComparableProperty dummyEquals 0 (World.empty (0 : Nat)))).1.Get)
      = some false) ∧
    ((startState (NewBasicProperty (O := Unit) GoFloat.nan (World.empty (0 : Nat)))).1.Equals
      (.val (startState
        (NewBasicProperty (O := Unit) GoFloat.nan (World.empty (0 : Nat)))).1.Get)
      = some false) ∧
    ((startState (NewBasicProperty (O := Unit) GoAny.nil (World.empty (0 : Nat)))).1.Equals
      (.val (startState
        (NewBasicProperty (O := Unit) GoAny.nil (World.empty (0 : Nat)))).1.Get)
      = some false) ∧
    ((startState (NewBasicProperty (O := Unit) (GoAny.slice [1])
        (World.empty (0 : Nat)))).1.Equals
      (.val (startState
        (NewBasicProperty (O := Unit) (GoAny.slice [1]) (World.empty (0 : Nat)))).1.Get)
      = none) :=
  ⟨⟨Or.inr ⟨dummyEquals, 0, 0, rfl⟩, rfl⟩, rfl, rfl, rfl⟩

/-- C14, amended: in every state reached from the property returned by
`NewBasicProperty`, `Equals(Get())` is the built-in comparison of the current
value with itself after the type assertion: true when the assertion succeeds
and `==` holds of the value with itself, false when the assertion fails (the
nil value of an interface type) or `==` does not hold (a floating-point NaN),
a panic when `==` panics. In every state reached from the property returned
by `NewComparableProperty` it is what the `Equals` of the value type answers
for the current value against itself. For both flavors, any sequence of calls
and goroutine moves with no `Set` among them leaves the current value and the
comparator as they are, so `Equals(v)` afterwards compares the same value with
`v`: it returns the same result as before (the `Equals` of a value type being
a function of its receiver and its argument). -/
theorem Equals_of_current_value_and_consistent (g : GoComparable T)
    (tEquals : T → Any T O → Bool) (v0 : T) (u : σ)
    (st st1 st' st1' : BaseProperty T O × Sys T σ)
    (hr : Reachable (startState (@NewBasicProperty T O σ g v0 (World.empty u))) st)
    (hr' : Reachable (startState (NewComparableProperty tEquals v0 (World.empty u))) st')
    (ops ops' : List (Op T O σ)) (hno : ∀ v, Op.set v ∉ ops) (hno' : ∀ v, Op.set v ∉ ops')
    (h1 : applyAll ops st = some st1) (h1' : applyAll ops' st' = some st1') :
    (st.1.Equals (.val st.1.Get) =
        (if g.asserts st.1.Get then g.eq st.1.Get st.1.Get else some false) ∧
      (g.asserts st.1.Get = true → g.eq st.1.Get st.1.Get = some true →
        st.1.Equals (.val st.1.Get) = some true) ∧
      st1.1.Get = st.1.Get ∧ st1.1.comparator = some (.basic g) ∧
      (∀ a, st1.1.Equals a = st.1.Equals a)) ∧
    (st'.1.Equals (.val st'.1.Get) = some (tEquals st'.1.Get (.val st'.1.Get)) ∧
      st1'.1.Get = st'.1.Get ∧ st1'.1.comparator = some (.comparable tEquals) ∧
      (∀ a, st1'.1.Equals a = st'.1.Equals a ∧
        st1'.1.Equals a = some (tEquals st'.1.Get a))) := by
  obtain ⟨hg, hcmp, _⟩ := Reachable_good _ st (Or.inl ⟨g, v0, u, rfl⟩) hr
  obtain ⟨hg', hcmp', _⟩ := Reachable_good _ st' (Or.inr ⟨tEquals, v0, u, rfl⟩) hr'
  have hcg : st.1.comparator = some (.basic g) := hcmp
  have hct : st'.1.comparator = some (.comparable tEquals) := hcmp'
  obtain ⟨_, _, _, _, hsame⟩ := applyAll_good ops st st1 h1 hg
  obtain ⟨_, _, _, _, hsame'⟩ := applyAll_good ops' st' st1' h1' hg'
  have hrefl := basic_equals st.1 hcg st.1.Get
  refine ⟨⟨hrefl, ?_, ?_, ?_, ?_⟩, ?_, ?_, ?_, ?_⟩
  · intro ha he
    rw [hrefl, ha, if_pos rfl]
    exact he
  · rw [hsame hno]
  · rw [hsame hno]
    exact hcg
  · intro a
    rw [hsame hno]
  · simp [BaseProperty.Equals, hct, ComparableProperty.Equals, BaseProperty.Get]
  · rw [hsame' hno']
  · rw [hsame' hno']
    exact hct
  · intro a
    rw [hsame' hno']
    exact ⟨rfl, by simp [BaseProperty.Equals, hct, ComparableProperty.Equals, BaseProperty.Get]⟩

theorem demoReadOps_no_set : ∀ v, Op.set v ∉ demoReadOps := by
  intro v hv
  simp [demoReadOps] at hv

theorem Equals_of_current_value_and_consistent_witness :
    Reachable (startState (@NewBasicProperty Nat Unit Nat instGoComparableNat 0 (World.empty 0)))
      demoState ∧
    Reachable (startState (NewComparableProperty dummyEquals 0 (World.empty 0)))
      demoComparableState ∧
    (∀ v, Op.set v ∉ demoReadOps) ∧ (∀ v, Op.set v ∉ demoReadOps) ∧
    applyAll demoReadOps demoState = some demoReadState ∧
    applyAll demoReadOps demoComparableState = some demoComparableReadState ∧
    ((demoState.1.Equals (.val demoState.1.Get) =
        (if instGoComparableNat.asserts demoState.1.Get
          then instGoComparableNat.eq demoState.1.Get demoState.1.Get else some false) ∧
      (instGoComparableNat.asserts demoState.1.Get = true →
        instGoComparableNat.eq demoState.1.Get demoState.1.Get = some true →
        demoState.1.Equals (.val demoState.1.Get) = some true) ∧
      demoReadState.1.Get = demoState.1.Get ∧
      demoReadState.1.comparator = some (.basic instGoComparableNat) ∧
      (∀ a, demoReadState.1.Equals a = demoState.1.Equals a)) ∧
    (demoComparableState.1.Equals (.val demoComparableState.1.Get) =
        some (dummyEquals demoComparableState.1.Get (.val demoComparableState.1.Get)) ∧
      demoComparableReadState.1.Get = demoComparableState.1.Get ∧
      demoComparableReadState.1.comparator = some (.comparable dummyEquals) ∧
      (∀ a, demoComparableReadState.1.Equals a = demoComparableState.1.Equals a ∧
        demoComparableReadState.1.Equals a = some (dummyEquals demoComparableState.1.Get a)))) :=
  ⟨demoState_reachable, demoComparableState_reachable, demoReadOps_no_set, demoReadOps_no_set,
    by rfl, by rfl,
    Equals_of_current_value_and_consistent instGoComparableNat dummyEquals 0 0 demoState
      demoReadState demoComparableState demoComparableReadState demoState_reachable
      demoComparableState_reachable demoReadOps demoReadOps demoReadOps_no_set
      demoReadOps_no_set (by rfl) (by rfl)⟩

/-- C15: in a reachable state of a constructed property, a listener that has
been allocated and whose back-reference is nil keeps a nil back-reference and
is in the list of no signal after any further sequence of `Subscribe`,
`SubscribeOnce`, `Emit`, `Set`, `Unsubscribe` and the other calls and
goroutine moves. -/
theorem terminated_listener_stays_terminated (init st st1 : BaseProperty T O × Sys T σ)
    (hc : Constructed init) (hr : Reachable init st) (l : ListenerId)
    (hl : l < st.2.world.nextListener) (hsig : (st.2.world.listeners l).signal = none)
    (ops : List (Op T O σ)) (h1 : applyAll ops st = some st1) :
    (st1.2.world.listeners l).signal = none ∧
    (∀ s, l ∉ (st1.2.world.signals s).listeners) ∧
    (∀ s, l ∉ (st.2.world.signals s).listeners) := by
  obtain ⟨hg, _, _⟩ := Reachable_good init st hc hr
  obtain ⟨hg1, hlater, _, _, _⟩ := applyAll_good ops st st1 h1 hg
  have hnil := hlater.cleared l hl hsig
  refine ⟨hnil, ?_, ?_⟩
  · intro s hm
    have := hg1.inv.backref s l hm
    rw [hnil] at this
    cases this
  · intro s hm
    have := hg.inv.backref s l hm
    rw [hsig] at this
    cases this

theorem terminated_listener_stays_terminated_witness :
    Constructed demoStart ∧ Reachable demoStart demoState ∧
    0 < demoState.2.world.nextListener ∧ (demoState.2.world.listeners 0).signal = none ∧
    applyAll demoLaterOps demoState = some demoLaterState ∧
    ((demoLaterState.2.world.listeners 0).signal = none ∧
    (∀ s, 0 ∉ (demoLaterState.2.world.signals s).listeners) ∧
    (∀ s, 0 ∉ (demoState.2.world.signals s).listeners)) :=
  ⟨demoStart_constructed, demoState_reachable, by decide, by rfl, by rfl,
    terminated_listener_stays_terminated demoStart demoState demoLaterState
      demoStart_constructed demoState_reachable 0 (by decide) (by rfl) demoLaterOps (by rfl)⟩

/-- C17: when the listed listeners have been allocated before and those of
`s` have open channels, `Subscribe` on `s` returns a listener that is in no
list before the call, with back-reference `s`, an open channel, its goroutine
at the receive and the given callback; the list of `s` becomes the old list
followed by the new listener; every other listener and every other signal is
unchanged; and the next `Emit` on `s` hands its value to the old listeners in
their order and then to the new one. -/
theorem Subscribe_appends_fresh_listener (sys : Sys T σ) (s : SignalId)
    (cb : T → World T σ → World T σ) (v : T)
    (halloc : ∀ s1, ∀ x ∈ (sys.world.signals s1).listeners, x < sys.world.nextListener)
    (hopen : Signal.Open s sys.world) :
    (∀ s1, (Signal.Subscribe s cb sys).1 ∉ (sys.world.signals s1).listeners) ∧
    ((Signal.Subscribe s cb sys).2.world.listeners (Signal.Subscribe s cb sys).1).signal
      = some s ∧
    ((Signal.Subscribe s cb sys).2.world.listeners
      (Signal.Subscribe s cb sys).1).channel.closed = false ∧
    (Signal.Subscribe s cb sys).2.loops (Signal.Subscribe s cb sys).1 = .receiving ∧
    (Signal.Subscribe s cb sys).2.callbacks (Signal.Subscribe s cb sys).1 = cb ∧
    ((Signal.Subscribe s cb sys).2.world.signals s).listeners =
      (sys.world.signals s).listeners ++ [(Signal.Subscribe s cb sys).1] ∧
    (∀ l, l ≠ (Signal.Subscribe s cb sys).1 →
      (Signal.Subscribe s cb sys).2.world.listeners l = sys.world.listeners l) ∧
    (∀ s1, s1 ≠ s → (Signal.Subscribe s cb sys).2.world.signals s1 = sys.world.signals s1) ∧
    (∃ w2, Signal.Emit s v (Signal.Subscribe s cb sys).2.world = some w2 ∧
      w2.sent = (Signal.Subscribe s cb sys).2.world.sent ++
        (sys.world.signals s).listeners.map (fun x => (x, v)) ++
        [((Signal.Subscribe s cb sys).1, v)]) := by
  obtain ⟨h1, h2, h3, h4, h5, _, h7, h8⟩ := Subscribe_result s cb sys
  rw [h1]
  have hopen1 : Signal.Open s (Signal.Subscribe s cb sys).2.world := by
    intro x hx
    rw [h5] at hx
    simp only [List.mem_append, List.mem_singleton] at hx
    rcases hx with hx | hx
    · have hne : x ≠ sys.world.nextListener := Nat.ne_of_lt (halloc s x hx)
      rw [h7 x hne]
      exact hopen x hx
    · subst hx
      rw [h4]
  refine ⟨?_, ?_, ?_, h3, h2, h5, h7, h8, ?_⟩
  · intro s1 hm
    exact Nat.lt_irrefl _ (halloc s1 _ hm)
  · rw [h4]
  · rw [h4]
  · refine ⟨_, Emit_open s v _ hopen1, ?_⟩
    simp [h5, List.append_assoc]

theorem twoSubscribers_alloc :
    ∀ s1, ∀ x ∈ (twoSubscribers.2.world.signals s1).listeners,
      x < twoSubscribers.2.world.nextListener := by
  intro s1 x hx
  have hnext : twoSubscribers.2.world.nextListener = 2 := rfl
  rw [hnext]
  by_cases hs : s1 = 0
  · subst hs
    rw [twoSubscribers_listeners_zero] at hx
    simp only [List.mem_cons, List.mem_singleton, List.not_mem_nil, or_false] at hx
    rcases hx with hx | hx <;> subst hx <;> decide
  · have : (twoSubscribers.2.world.signals s1).listeners = [] := by
      simp [twoSubscribers, Signal.Subscribe, Signal.addListener, NewBasicProperty,
        BaseProperty.ChangedSignal, World.empty, Sys.empty, Function.update, hs]
    rw [this] at hx
    cases hx

theorem Subscribe_appends_fresh_listener_witness :
    (∀ s1, ∀ x ∈ (twoSubscribers.2.world.signals s1).listeners,
      x < twoSubscribers.2.world.nextListener) ∧
    Signal.Open 0 twoSubscribers.2.world ∧
    ((∀ s1, (Signal.Subscribe 0 countCalls twoSubscribers.2).1 ∉
      (twoSubscribers.2.world.signals s1).listeners) ∧
    ((Signal.Subscribe 0 countCalls twoSubscribers.2).2.world.listeners
      (Signal.Subscribe 0 countCalls twoSubscribers.2).1).signal = some 0 ∧
    ((Signal.Subscribe 0 countCalls twoSubscribers.2).2.world.listeners
      (Signal.Subscribe 0 countCalls twoSubscribers.2).1).channel.closed = false ∧
    (Signal.Subscribe 0 countCalls twoSubscribers.2).2.loops
      (Signal.Subscribe 0 countCalls twoSubscribers.2).1 = .receiving ∧
    (Signal.Subscribe 0 countCalls twoSubscribers.2).2.callbacks
      (Signal.Subscribe 0 countCalls twoSubscribers.2).1 = countCalls ∧
    ((Signal.Subscribe 0 countCalls twoSubscribers.2).2.world.signals 0).listeners =
      (twoSubscribers.2.world.signals 0).listeners ++
        [(Signal.Subscribe 0 countCalls twoSubscribers.2).1] ∧
    (∀ l, l ≠ (Signal.Subscribe 0 countCalls twoSubscribers.2).1 →
      (Signal.Subscribe 0 countCalls twoSubscribers.2).2.world.listeners l =
        twoSubscribers.2.world.listeners l) ∧
    (∀ s1, s1 ≠ 0 → (Signal.Subscribe 0 countCalls twoSubscribers.2).2.world.signals s1 =
      twoSubscribers.2.world.signals s1) ∧
    (∃ w2, Signal.Emit 0 42 (Signal.Subscribe 0 countCalls twoSubscribers.2).2.world
        = some w2 ∧
      w2.sent = (Signal.Subscribe 0 countCalls twoSubscribers.2).2.world.sent ++
        (twoSubscribers.2.world.signals 0).listeners.map (fun x => (x, 42)) ++
        [((Signal.Subscribe 0 countCalls twoSubscribers.2).1, 42)])) :=
  ⟨twoSubscribers_alloc, twoSubscribers_open,
    Subscribe_appends_fresh_listener twoSubscribers.2 0 countCalls 42 twoSubscribers_alloc
      twoSubscribers_open⟩

/-- C18: in every state reached from a constructed property by `Subscribe`,
`SubscribeOnce`, `Unsubscribe`, `Emit`, `Set` (and the other calls and
goroutine moves), no list holds a listener twice, every listener in the list
of a signal has that signal as back-reference, and a listener whose
back-reference is nil is in no list; so `removeListener`, which cuts out the
first matching entry only, leaves no entry for the listener. -/
theorem reachable_listener_lists_are_well_formed (init st : BaseProperty T O × Sys T σ)
    (hc : Constructed init) (hr : Reachable init st) :
    (∀ s, (st.2.world.signals s).listeners.Nodup) ∧
    (∀ s, ∀ l ∈ (st.2.world.signals s).listeners, (st.2.world.listeners l).signal = some s) ∧
    (∀ l, (st.2.world.listeners l).signal = none →
      ∀ s, l ∉ (st.2.world.signals s).listeners) ∧
    (∀ s l, l ∉ ((Signal.removeListener s l st.2.world).signals s).listeners) := by
  obtain ⟨hg, _, _⟩ := Reachable_good init st hc hr
  refine ⟨hg.inv.nodup, hg.inv.backref, ?_, ?_⟩
  · intro l hsig s hm
    have := hg.inv.backref s l hm
    rw [hsig] at this
    cases this
  · intro s l
    simp only [Signal.removeListener, Function.update_same]
    rw [removeFirst_nodup l _ (hg.inv.nodup s)]
    simp

theorem reachable_listener_lists_are_well_formed_witness :
    Constructed demoStart ∧ Reachable demoStart demoLaterState ∧
    ((∀ s, (demoLaterState.2.world.signals s).listeners.Nodup) ∧
    (∀ s, ∀ l ∈ (demoLaterState.2.world.signals s).listeners,
      (demoLaterState.2.world.listeners l).signal = some s) ∧
    (∀ l, (demoLaterState.2.world.listeners l).signal = none →
      ∀ s, l ∉ (demoLaterState.2.world.signals s).listeners) ∧
    (∀ s l, l ∉ ((Signal.removeListener s l demoLaterState.2.world).signals s).listeners)) :=
  ⟨demoStart_constructed, ⟨demoOps ++ demoLaterOps, by rfl⟩,
    reachable_listener_lists_are_well_formed demoStart demoLaterState demoStart_constructed
      ⟨demoOps ++ demoLaterOps, by rfl⟩⟩

/-! ## Sends over a snapshot taken earlier -/

theorem stale_snapshot_skips_new_listener (sys : Sys T σ) (s : SignalId)
    (cb : T → World T σ → World T σ) (v : T)
    (halloc : ∀ s1, ∀ x ∈ (sys.world.signals s1).listeners, x < sys.world.nextListener)
    (hopen : Signal.Open s sys.world) :
    ∃ w2, sendAll v (Signal.snapshot s sys.world) (Signal.Subscribe s cb sys).2.world = some w2 ∧
      w2.sent = (Signal.Subscribe s cb sys).2.world.sent ++
        (Signal.snapshot s sys.world).map (fun x => (x, v)) ∧
      (Signal.Subscribe s cb sys).1 ∉ Signal.snapshot s sys.world := by
  obtain ⟨h1, _, _, _, _, _, h7, _⟩ := Subscribe_result s cb sys
  refine ⟨_, sendAll_open v _ _ ?_, rfl, ?_⟩
  · intro x hx
    rw [h7 x (Nat.ne_of_lt (halloc s x hx))]
    exact hopen x hx
  · rw [h1]
    intro hm
    exact Nat.lt_irrefl _ (halloc s _ hm)

theorem stale_snapshot_reaches_removed_listener (w : World T σ) (s : SignalId)
    (l : ListenerId) (v : T) (hopen : Signal.Open s w) :
    ∃ w2, sendAll v (Signal.snapshot s w) (Listener.Unsubscribe l w) = some w2 ∧
      w2.sent = (Listener.Unsubscribe l w).sent ++
        (Signal.snapshot s w).map (fun x => (x, v)) := by
  refine ⟨_, sendAll_open v _ _ ?_, rfl⟩
  intro x hx
  rw [Unsubscribe_channel]
  exact hopen x hx

/-! ## Calls of an unsubscribed listener -/

theorem callsOf_append (l : ListenerId) (xs ys : List (ListenerId × T)) :
    callsOf l (xs ++ ys) = callsOf l xs ++ callsOf l ys := by
  simp [callsOf]

theorem callsOf_single_same (l : ListenerId) (v : T) : callsOf l [(l, v)] = [v] := by
  simp [callsOf]

theorem callsOf_single_other (l l1 : ListenerId) (v : T) (h : l1 ≠ l) :
    callsOf l [(l1, v)] = [] := by
  simp [callsOf, h]

theorem loopExit_calls (l1 : ListenerId) (sys sys1 : Sys T σ)
    (h : sys.loopExit l1 = .next sys1) :
    sys1.calls = sys.calls ∧ sys1.loops = Function.update sys.loops l1 .exited := by
  unfold Sys.loopExit at h
  by_cases hc : (sys.world.listeners l1).channel.closed = true
  · simp [hc] at h
  · simp only [hc, Bool.false_eq_true, if_false, Step.next.injEq] at h
    subst h
    exact ⟨rfl, rfl⟩

theorem update_not_calling (loops : ListenerId → Loop T) (l l1 : ListenerId) (x : Loop T)
    (hx : ∀ u, x ≠ .calling u) :
    Function.update loops l1 x l = loops l ∨ ∀ u, Function.update loops l1 x l ≠ .calling u := by
  by_cases h : l = l1
  · subst h
    right
    simpa using hx
  · left
    exact Function.update_noteq h _ _

theorem loopStep_callsOf (l l1 : ListenerId) (sys sys1 : Sys T σ)
    (hstep : sys.loopStep l1 = .next sys1)
    (hsig : (sys.world.listeners l).signal = none) :
    (callsOf l sys1.calls = callsOf l sys.calls ∧
      (sys1.loops l = sys.loops l ∨ ∀ u, sys1.loops l ≠ .calling u)) ∨
    (∃ u, sys.loops l = .calling u ∧ callsOf l sys1.calls = callsOf l sys.calls ++ [u] ∧
      ∀ u1, sys1.loops l ≠ .calling u1) := by
  unfold Sys.loopStep at hstep
  cases hloop : sys.loops l1 with
  | exited => simp [hloop] at hstep
  | receiving =>
    by_cases hc : (sys.world.listeners l1).channel.closed = true
    · simp only [hloop, hc, if_true] at hstep
      obtain ⟨h1, h2⟩ := loopExit_calls l1 sys sys1 hstep
      left
      rw [h1, h2]
      exact ⟨rfl, update_not_calling _ _ _ _ (by simp)⟩
    · simp [hloop, hc] at hstep
  | got v =>
    by_cases hs : (sys.world.listeners l1).signal = none
    · simp only [hloop, hs, if_true] at hstep
      obtain ⟨h1, h2⟩ := loopExit_calls l1 sys sys1 hstep
      left
      rw [h1, h2]
      exact ⟨rfl, update_not_calling _ _ _ _ (by simp)⟩
    · simp only [hloop, hs, if_false, Step.next.injEq] at hstep
      subst hstep
      left
      refine ⟨rfl, Or.inl ?_⟩
      have hne : l ≠ l1 := fun h => hs (h ▸ hsig)
      exact Function.update_noteq hne _ _
  | calling v =>
    simp only [hloop, Step.next.injEq] at hstep
    subst hstep
    by_cases h : l = l1
    · subst h
      right
      refine ⟨v, hloop, ?_, ?_⟩
      · simp only [callsOf_append, callsOf_single_same]
      · intro u1
        simp
    · left
      refine ⟨?_, Or.inl (Function.update_noteq h _ _)⟩
      simp only [callsOf_append, callsOf_single_other l l1 v (Ne.symm h), List.append_nil]

theorem apply_callsOf (op : Op T O σ) (st st1 : BaseProperty T O × Sys T σ)
    (h : op.apply st = some st1) (l : ListenerId) (hl : l < st.2.world.nextListener)
    (hsig : (st.2.world.listeners l).signal = none) :
    (callsOf l st1.2.calls = callsOf l st.2.calls ∧
      (st1.2.loops l = st.2.loops l ∨ ∀ u, st1.2.loops l ≠ .calling u)) ∨
    (∃ u, st.2.loops l = .calling u ∧ callsOf l st1.2.calls = callsOf l st.2.calls ++ [u] ∧
      ∀ u1, st1.2.loops l ≠ .calling u1) := by
  cases op with
  | get =>
    simp only [Op.apply, Option.some.injEq] at h
    subst h
    exact Or.inl ⟨rfl, Or.inl rfl⟩
  | changedSignal =>
    simp only [Op.apply, Option.some.injEq] at h
    subst h
    exact Or.inl ⟨rfl, Or.inl rfl⟩
  | equals a =>
    simp only [Op.apply] at h
    cases he : st.1.Equals a with
    | none => simp [he] at h
    | some b =>
      simp only [he, Option.some.injEq] at h
      subst h
      exact Or.inl ⟨rfl, Or.inl rfl⟩
  | set v =>
    simp only [Op.apply] at h
    cases hs : st.1.Set v st.2.world with
    | none => simp [hs] at h
    | some r =>
      obtain ⟨p1, w1⟩ := r
      simp only [hs, Option.some.injEq] at h
      subst h
      exact Or.inl ⟨rfl, Or.inl rfl⟩
  | emit v =>
    simp only [Op.apply] at h
    cases hs : Signal.Emit st.1.ChangedSignal v st.2.world with
    | none => simp [hs] at h
    | some w1 =>
      simp only [hs, Option.some.injEq] at h
      subst h
      exact Or.inl ⟨rfl, Or.inl rfl⟩
  | subscribe cb =>
    simp only [Op.apply, Option.some.injEq] at h
    subst h
    refine Or.inl ⟨rfl, Or.inl ?_⟩
    simp [Signal.Subscribe, Function.update_noteq (Nat.ne_of_lt hl)]
  | subscribeOnce cb =>
    simp only [Op.apply, Option.some.injEq] at h
    subst h
    refine Or.inl ⟨rfl, Or.inl ?_⟩
    simp [Signal.SubscribeOnce, Signal.Subscribe, Function.update_noteq (Nat.ne_of_lt hl)]
  | unsubscribe l1 =>
    simp only [Op.apply, Option.some.injEq] at h
    subst h
    exact Or.inl ⟨rfl, Or.inl rfl⟩
  | handOver l1 v =>
    simp only [Op.apply] at h
    cases hloop : st.2.loops l1 with
    | receiving =>
      by_cases hc : (st.2.world.listeners l1).channel.closed = true
      · simp [hloop, hc] at h
      · simp only [hloop, hc, Bool.false_eq_true, if_false, Option.some.injEq] at h
        subst h
        exact Or.inl ⟨rfl, update_not_calling _ _ _ _ (by simp)⟩
    | got u => simp [hloop] at h
    | calling u => simp [hloop] at h
    | exited => simp [hloop] at h
  | loop l1 =>
    simp only [Op.apply] at h
    cases hstep : st.2.loopStep l1 with
    | blocked => simp [hstep] at h
    | panic => simp [hstep] at h
    | next sys1 =>
      simp only [hstep, Option.some.injEq] at h
      subst h
      exact loopStep_callsOf l l1 st.2 sys1 hstep hsig

theorem applyAll_callsOf (ops : List (Op T O σ)) (st st1 : BaseProperty T O × Sys T σ)
    (h : applyAll ops st = some st1) (hg : st.2.Good) (l : ListenerId)
    (hl : l < st.2.world.nextListener) (hsig : (st.2.world.listeners l).signal = none) :
    ((∀ u, st.2.loops l ≠ .calling u) →
      callsOf l st1.2.calls = callsOf l st.2.calls ∧ ∀ u, st1.2.loops l ≠ .calling u) ∧
    (callsOf l st1.2.calls = callsOf l st.2.calls ∨
      ∃ u, st.2.loops l = .calling u ∧ callsOf l st1.2.calls = callsOf l st.2.calls ++ [u]) := by
  induction ops generalizing st with
  | nil =>
    simp only [applyAll, Option.some.injEq] at h
    subst h
    exact ⟨fun hn => ⟨rfl, hn⟩, Or.inl rfl⟩
  | cons op rest ih =>
    simp only [applyAll] at h
    cases hop : op.apply st with
    | none => simp [hop] at h
    | some st2 =>
      simp only [hop] at h
      obtain ⟨g2, later, _, _, _⟩ := apply_good op st st2 hop hg
      obtain ⟨hA, hB⟩ := ih st2 h g2 (Nat.lt_of_lt_of_le hl later.next)
        (later.cleared l hl hsig)
      rcases apply_callsOf op st st2 hop l hl hsig with ⟨hc, hloops⟩ | ⟨u, hu, hc, hnot⟩
      · constructor
        · intro hn
          have hn2 : ∀ u, st2.2.loops l ≠ .calling u := by
            rcases hloops with hsame | hnot
            · rw [hsame]
              exact hn
            · exact hnot
          obtain ⟨h3, h4⟩ := hA hn2
          exact ⟨h3.trans hc, h4⟩
        · rcases hB with h3 | ⟨u, hu, h3⟩
          · exact Or.inl (h3.trans hc)
          · rcases hloops with hsame | hnot
            · exact Or.inr ⟨u, hsame ▸ hu, by rw [h3, hc]⟩
            · exact (hnot u hu).elim
      · constructor
        · intro hn
          exact (hn u hu).elim
        · obtain ⟨h3, _⟩ := hA hnot
          exact Or.inr ⟨u, hu, by rw [h3, hc]⟩

theorem raceState_reachable : Reachable demoStart raceState :=
  ⟨raceOps, by rfl⟩

/-- C10, as stated, fails: the goroutine of a listener has received 42 and
found the back-reference set; before it goes on to the call, the caller
unsubscribes the listener (back-reference nil, listener out of the snapshot,
callback not called so far); the goroutine then calls the callback with 42,
after the unsubscription. -/
theorem unsubscribed_listener_is_never_called_counterexample :
    applyAll raceOps demoStart = some raceState ∧
    (raceState.2.world.listeners 0).signal = none ∧
    Signal.snapshot raceState.1.ChangedSignal raceState.2.world = [] ∧
    raceState.2.calls = [] ∧ raceState.2.world.user = 0 ∧
    raceState.2.loops 0 = .calling 42 ∧
    ∃ st1, Op.apply (.loop 0) raceState = some st1 ∧ st1.2.calls = [(0, 42)] ∧
      st1.2.world.user = 1 := by
  refine ⟨by rfl, by rfl, by rfl, by rfl, by rfl, by rfl, ?_⟩
  exact ⟨_, by rfl, by rfl, by rfl⟩

/-- C10, amended: (a) in a well-formed heap, after `l.Unsubscribe()` no
snapshot of any signal contains `l`, so an `Emit` on any signal hands nothing
to `l`; (b) a goroutine that holds a received value and makes its test while
the back-reference of its listener is nil leaves the loop without calling the
callback (the trace of callback calls and the user variables are unchanged)
and closes the channel; (c) in a state reached from a constructed property,
for a listener whose back-reference is nil and any further sequence of calls
and goroutine moves: when its goroutine is not between the test of the
back-reference and the call, the callback is not invoked again; when it is
(it passed the test before the unsubscription), the callback is invoked at
most once more, with the value it had received; (d) for a property
created with 0 and one listener whose callback unsubscribes it at the first
value `>= k`, a caller setting `0, 1, .., n` (`1 <= k <= n`) under every
schedule of the caller and the listener goroutine runs without a panic to a
state where no thread can move, in which the callback has been called exactly
`k` times, with `1, .., k` in this order, the listener is out of the list and
`Get()` is `n`. -/
theorem unsubscribed_listener_is_called_at_most_once_more (w : World T σ) (l : ListenerId)
    (s : SignalId) (v : T) (hinv : w.Inv)
    (sys : Sys T σ) (l1 : ListenerId) (v1 : T) (hgot : sys.loops l1 = .got v1)
    (hsig : (sys.world.listeners l1).signal = none)
    (hopen : (sys.world.listeners l1).channel.closed = false)
    (init st st1 : BaseProperty T O × Sys T σ) (hc : Constructed init) (hr : Reachable init st)
    (l2 : ListenerId) (hl2 : l2 < st.2.world.nextListener)
    (hsig2 : (st.2.world.listeners l2).signal = none)
    (ops : List (Op T O σ)) (h1 : applyAll ops st = some st1)
    (k n : Nat) (hk : 1 ≤ k) (hkn : k ≤ n) (sched : Nat → Bool) (fuel : Nat)
    (hfuel : 4 * (n + 1) ≤ fuel) :
    (l ∉ Signal.snapshot s (Listener.Unsubscribe l w) ∧
      ∃ w1, Signal.Emit s v (Listener.Unsubscribe l w) = some w1 ∧
        ∃ added, w1.sent = (Listener.Unsubscribe l w).sent ++ added ∧ ∀ x ∈ added, x.1 ≠ l) ∧
    (∃ sys1, sys.loopStep l1 = .next sys1 ∧ sys1.calls = sys.calls ∧
      sys1.world.user = sys.world.user ∧ sys1.loops l1 = .exited ∧
      (sys1.world.listeners l1).channel.closed = true) ∧
    (((∀ u, st.2.loops l2 ≠ .calling u) →
        callsOf l2 st1.2.calls = callsOf l2 st.2.calls ∧ ∀ u, st1.2.loops l2 ≠ .calling u) ∧
      (callsOf l2 st1.2.calls = callsOf l2 st.2.calls ∨
        ∃ u, st.2.loops l2 = .calling u ∧
          callsOf l2 st1.2.calls = callsOf l2 st.2.calls ++ [u]) ∧
      (st1.2.world.listeners l2).signal = none ∧
      ∀ s1, l2 ∉ Signal.snapshot s1 st1.2.world) ∧
    (∃ r, Run.exec (unsubscribeScenario k n).1 sched fuel (unsubscribeScenario k n).2 = some r ∧
      Run.quiescent (unsubscribeScenario k n).1 r ∧
      r.sys.calls = (List.range' 1 k).map (fun u => ((unsubscribeScenario k n).1, u)) ∧
      r.sys.calls.length = k ∧
      r.sys.world.user = k ∧
      (unsubscribeScenario k n).1 ∉ Signal.snapshot r.prop.ChangedSignal r.sys.world ∧
      r.prop.Get = n) := by
  refine ⟨⟨Unsubscribe_not_in_snapshot w hinv l s, ?_⟩,
    loopStep_discards sys l1 v1 hgot hsig hopen, ?_, ?_⟩
  · have hopen1 := (Unsubscribe_inv l w hinv).chanOpen s
    refine ⟨_, Emit_open s v _ hopen1, _, rfl, ?_⟩
    intro x hx
    simp only [List.mem_map] at hx
    obtain ⟨y, hy, rfl⟩ := hx
    intro hxl
    simp only at hxl
    subst hxl
    exact Unsubscribe_not_in_snapshot w hinv y s hy
  · obtain ⟨hg, _, _⟩ := Reachable_good init st hc hr
    obtain ⟨hA, hB⟩ := applyAll_callsOf ops st st1 h1 hg l2 hl2 hsig2
    obtain ⟨hg1, hlater, _, _, _⟩ := applyAll_good ops st st1 h1 hg
    have hnil := hlater.cleared l2 hl2 hsig2
    refine ⟨hA, hB, hnil, ?_⟩
    intro s1 hm
    have := hg1.inv.backref s1 l2 hm
    rw [hnil] at this
    cases this
  · obtain ⟨a1, he, ⟨hs, hl⟩, hval, hcount, hcalls, hsub⟩ :=
      Abs_exec_final k n hk hkn sched fuel _ Phase.start
        (by simp [Abs.measure]; omega)
    obtain ⟨r1, hr, hrep⟩ := sim_exec k sched fuel _ _ (unsubscribeScenario_rep k n) a1 he
    rw [unsubscribeScenario_listener]
    refine ⟨r1, hr, Rep_quiescent k a1 r1 hrep hs hl, ?_, ?_, ?_, ?_, ?_⟩
    · rw [hrep.calls, hcalls]
    · rw [hrep.calls, hcalls]; simp
    · rw [hrep.user, hcount]
    · simp [Signal.snapshot, BaseProperty.ChangedSignal, hrep.changed, hrep.list, hsub]
    · simp [BaseProperty.Get, hrep.value, hval]

theorem unsubscribed_listener_is_called_at_most_once_more_witness :
    twoSubscribers.2.world.Inv ∧ lateValueState.loops 0 = .got 2 ∧
    (lateValueState.world.listeners 0).signal = none ∧
    (lateValueState.world.listeners 0).channel.closed = false ∧
    Constructed demoStart ∧ Reachable demoStart raceState ∧
    0 < raceState.2.world.nextListener ∧ (raceState.2.world.listeners 0).signal = none ∧
    applyAll raceLaterOps raceState = some raceLaterState ∧
    1 ≤ 2 ∧ 2 ≤ 3 ∧ 4 * (3 + 1) ≤ 16 ∧
    ((0 ∉ Signal.snapshot 0 (Listener.Unsubscribe 0 twoSubscribers.2.world) ∧
      ∃ w1, Signal.Emit 0 42 (Listener.Unsubscribe 0 twoSubscribers.2.world) = some w1 ∧
        ∃ added, w1.sent = (Listener.Unsubscribe 0 twoSubscribers.2.world).sent ++ added ∧
          ∀ x ∈ added, x.1 ≠ 0) ∧
    (∃ sys1, lateValueState.loopStep 0 = .next sys1 ∧ sys1.calls = lateValueState.calls ∧
      sys1.world.user = lateValueState.world.user ∧ sys1.loops 0 = .exited ∧
      (sys1.world.listeners 0).channel.closed = true) ∧
    (((∀ u, raceState.2.loops 0 ≠ .calling u) →
        callsOf 0 raceLaterState.2.calls = callsOf 0 raceState.2.calls ∧
          ∀ u, raceLaterState.2.loops 0 ≠ .calling u) ∧
      (callsOf 0 raceLaterState.2.calls = callsOf 0 raceState.2.calls ∨
        ∃ u, raceState.2.loops 0 = .calling u ∧
          callsOf 0 raceLaterState.2.calls = callsOf 0 raceState.2.calls ++ [u]) ∧
      (raceLaterState.2.world.listeners 0).signal = none ∧
      ∀ s1, 0 ∉ Signal.snapshot s1 raceLaterState.2.world) ∧
    (∃ r, Run.exec (unsubscribeScenario 2 3).1 (fun _ => true) 16 (unsubscribeScenario 2 3).2
        = some r ∧
      Run.quiescent (unsubscribeScenario 2 3).1 r ∧
      r.sys.calls = (List.range' 1 2).map (fun u => ((unsubscribeScenario 2 3).1, u)) ∧
      r.sys.calls.length = 2 ∧
      r.sys.world.user = 2 ∧
      (unsubscribeScenario 2 3).1 ∉ Signal.snapshot r.prop.ChangedSignal r.sys.world ∧
      r.prop.Get = 3)) :=
  ⟨twoSubscribers_inv, lateValueState_got, lateValueState_signal, lateValueState_open,
    demoStart_constructed, raceState_reachable, by decide, by rfl, by rfl,
    by decide, by decide, by decide,
    unsubscribed_listener_is_called_at_most_once_more twoSubscribers.2.world 0 0 42
      twoSubscribers_inv lateValueState 0 2 lateValueState_got lateValueState_signal
      lateValueState_open demoStart raceState raceLaterState demoStart_constructed
      raceState_reachable 0 (by decide) (by rfl) raceLaterOps (by rfl)
      2 3 (by decide) (by decide) (fun _ => true) 16 (by decide)⟩

end GoProperty
